import Mathlib

/-!
# EosSdk interface manager (`src/intf.cpp`)

A shallow embedding of the interface-identifier type, the status converter,
the handler registry of `IntfMgrImpl`, the notification fan-out, the
`intf_handler` wrapper, the manager facade `intf_mgr` over the status
directory and `IntfMgrSm::handleIntfStatus`, followed by the properties proved
about them.

Conventions of the embedding:

* a `uint32_t` is a `Nat` reduced modulo `2 ^ 32` where it is stored;
* `panic(msg)` is `Except.error msg`;
* an `intf_handler *` is a `Nat` (object identity);
* a virtual call `(*it)->on_xxx(args)` made by the manager is recorded as one
  entry of a trace, in the order in which the calls are made; the callee is
  the no-op of lines 352-356 or an override that leaves the registry alone
  while the loop runs;
* the status directory is the list of its records in key order, and the
  callback of `intf_foreach` is a function of the id and of the contents of
  `*arg` that leaves the directory alone.
-/

namespace eos

/-! ## Status converter -/

/-- Modelled from the spec: the internal enumeration `Interface::IntfOperStatus`
is declared in `Intf/Intf.h`, which is not part of the sources.  The five
enumerators named by the `switch` of `convert` are kept, and `other raw`
stands for every remaining value of the enumeration. -/
inductive IntfOperStatus where
  | intfOperUp_
  | intfOperDown_
  | intfOperDormant_
  | intfOperNotPresent_
  | intfOperLowerLayerDown_
  | other (raw : Nat)
  deriving DecidableEq, Repr

/-- The public status enumeration `oper_status_t` (`EosSdk/intf.h`). -/
inductive oper_status_t where
  | INTF_OPER_NULL
  | INTF_OPER_UP
  | INTF_OPER_DOWN
  deriving DecidableEq, Repr

/-- The function `convert(Interface::IntfOperStatus)`, lines 27-44. -/
def convert : IntfOperStatus → oper_status_t
  | IntfOperStatus.intfOperUp_ => oper_status_t.INTF_OPER_UP
  | IntfOperStatus.intfOperDown_ => oper_status_t.INTF_OPER_DOWN
  | IntfOperStatus.intfOperDormant_ => oper_status_t.INTF_OPER_DOWN
  | IntfOperStatus.intfOperNotPresent_ => oper_status_t.INTF_OPER_DOWN
  | IntfOperStatus.intfOperLowerLayerDown_ => oper_status_t.INTF_OPER_DOWN
  | IntfOperStatus.other _ => oper_status_t.INTF_OPER_NULL

/-! ## Interface identifiers -/

/-- The public enumeration `intf_type_t` (`EosSdk/intf.h`). -/
inductive intf_type_t where
  | INTF_TYPE_NULL
  | INTF_TYPE_OTHER
  | INTF_TYPE_ETH
  | INTF_TYPE_VLAN
  | INTF_TYPE_MANAGEMENT
  | INTF_TYPE_LOOPBACK
  | INTF_TYPE_LAG
  | INTF_TYPE_NULL0
  deriving DecidableEq, Repr

/-- Modelled from the spec: the naming/identifier authority (`Arnet/IntfId.h`,
`EthIntf/EthIntfId.h`, `Intf/IntfIntfId.h`, `Ebra/EbraIntfId.h`), which is not
part of the sources.  It exposes the reserved empty-value constant, the five
per-type tag constants, the id resolved for the name "Null0", and the
resolution of a name to a packed id (`none` stands for the range exception). -/
structure IntfIdAuthority where
  emptyIntfId : Nat
  ethIntfIdType : Nat
  vlanIntfIdType : Nat
  mgmtIntfIdType : Nat
  loopbackIntfIdType : Nat
  poIntfIdType : Nat
  null0IntfId : Nat
  intfIdOfName : String → Option Nat

/-- The constant `INTFID_TYPEID_BITSHIFT`, line 46. -/
def INTFID_TYPEID_BITSHIFT : Nat := 25

/-- Truncation of a value to a `uint32_t`. -/
def to_uint32 (v : Nat) : Nat := v % 2 ^ 32

/-- The static `uint32_t empty_intf_id`, line 48. -/
def empty_intf_id (env : IntfIdAuthority) : Nat := to_uint32 env.emptyIntfId

/-- The function-local static `uint32_t null0_intf_id`, line 84. -/
def null0_intf_id (env : IntfIdAuthority) : Nat := to_uint32 env.null0IntfId

/-- The class `intf_id_t`: one `uint32_t` member. -/
structure intf_id_t where
  intfId_ : Nat
  deriving DecidableEq, Repr

namespace intf_id_t

/-- The method `intf_id_t::is_null0`, lines 82-86. -/
def is_null0 (env : IntfIdAuthority) (self : intf_id_t) : Bool :=
  self.intfId_ == null0_intf_id env

/-- The method `intf_id_t::intf_type`, lines 88-106. -/
def intf_type (env : IntfIdAuthority) (self : intf_id_t) : intf_type_t :=
  let type_id := self.intfId_ >>> INTFID_TYPEID_BITSHIFT
  if type_id = env.ethIntfIdType then intf_type_t.INTF_TYPE_ETH
  else if type_id = env.vlanIntfIdType then intf_type_t.INTF_TYPE_VLAN
  else if type_id = env.mgmtIntfIdType then intf_type_t.INTF_TYPE_MANAGEMENT
  else if type_id = env.loopbackIntfIdType then intf_type_t.INTF_TYPE_LOOPBACK
  else if type_id = env.poIntfIdType then intf_type_t.INTF_TYPE_LAG
  else if self.is_null0 env then intf_type_t.INTF_TYPE_NULL0
  else if self.intfId_ = empty_intf_id env then intf_type_t.INTF_TYPE_NULL
  else intf_type_t.INTF_TYPE_OTHER

/-- The default constructor `intf_id_t::intf_id_t()`, line 51. -/
def empty (env : IntfIdAuthority) : intf_id_t :=
  ⟨empty_intf_id env⟩

/-- The constructor `intf_id_t::intf_id_t(uint32_t id)`, lines 54-59. -/
def of_uint32 (env : IntfIdAuthority) (id : Nat) : Except String intf_id_t :=
  let self : intf_id_t := ⟨to_uint32 id⟩
  if self.intf_type env = intf_type_t.INTF_TYPE_OTHER then
    Except.error "Invalid interface id"
  else
    Except.ok self

/-- The constructors `intf_id_t::intf_id_t(char const *)` and
`intf_id_t::intf_id_t(const std::string &)`, lines 61-80 (same body). -/
def of_name (env : IntfIdAuthority) (intfname : String) : Except String intf_id_t :=
  match env.intfIdOfName intfname with
  | some v => Except.ok ⟨to_uint32 v⟩
  | none => Except.error "Invalid interface name"

/-- The operator `intf_id_t::operator!`, lines 111-114. -/
def not (env : IntfIdAuthority) (self : intf_id_t) : Bool :=
  self.intfId_ == empty_intf_id env

end intf_id_t

/-- The decoded type tag of a raw value: `v >> INTFID_TYPEID_BITSHIFT`. -/
def type_tag (v : Nat) : Nat := v >>> INTFID_TYPEID_BITSHIFT

/-- The tag is one of the five tag constants tested by `intf_type`. -/
def IntfIdAuthority.recognized (env : IntfIdAuthority) (tag : Nat) : Prop :=
  tag = env.ethIntfIdType ∨ tag = env.vlanIntfIdType ∨ tag = env.mgmtIntfIdType ∨
    tag = env.loopbackIntfIdType ∨ tag = env.poIntfIdType

instance (env : IntfIdAuthority) (tag : Nat) : Decidable (env.recognized tag) :=
  inferInstanceAs (Decidable (tag = env.ethIntfIdType ∨ tag = env.vlanIntfIdType ∨
    tag = env.mgmtIntfIdType ∨ tag = env.loopbackIntfIdType ∨ tag = env.poIntfIdType))

/-- The five tag constants are pairwise distinct. -/
def IntfIdAuthority.tags_distinct (env : IntfIdAuthority) : Prop :=
  [env.ethIntfIdType, env.vlanIntfIdType, env.mgmtIntfIdType,
    env.loopbackIntfIdType, env.poIntfIdType].Nodup

instance (env : IntfIdAuthority) : Decidable env.tags_distinct :=
  inferInstanceAs (Decidable ([env.ethIntfIdType, env.vlanIntfIdType, env.mgmtIntfIdType,
    env.loopbackIntfIdType, env.poIntfIdType].Nodup))

/-- A sample authority: tags 1 to 5, empty id 0, "Null0" resolved in tag 6. -/
def sampleAuthority : IntfIdAuthority where
  emptyIntfId := 0
  ethIntfIdType := 1
  vlanIntfIdType := 2
  mgmtIntfIdType := 3
  loopbackIntfIdType := 4
  poIntfIdType := 5
  null0IntfId := 6 * 2 ^ 25
  intfIdOfName := fun s => if s = "Null0" then some (6 * 2 ^ 25) else none

/-! ## Handler registry and notification fan-out (`IntfMgrImpl`) -/

/-- An `intf_handler *`: a handler is identified by its address. -/
abbrev HandlerPtr := Nat

/-- A virtual method of `intf_handler` together with its arguments. -/
inductive HandlerCall where
  | on_initialized
  | on_create (intf_id : intf_id_t)
  | on_delete (intf_id : intf_id_t)
  | on_oper_status (intf_id : intf_id_t) (status : oper_status_t)
  | on_admin_enabled (intf_id : intf_id_t) (enabled : Bool)
  deriving DecidableEq, Repr

/-- One call `receiver->call` made by the manager. -/
structure Invocation where
  receiver : HandlerPtr
  call : HandlerCall
  deriving DecidableEq, Repr

/-- The member function `std::list<T>::remove(value)`: erases every element
that compares equal to `value`, keeping the others in order. -/
def list_remove (value : HandlerPtr) : List HandlerPtr → List HandlerPtr
  | [] => []
  | x :: rest => if x = value then list_remove value rest else x :: list_remove value rest

/-- The loop shared by the notification methods:
`for (it = handlerList_.begin(); it != handlerList_.end(); ++it) (*it)->call`. -/
def for_each_handler (call : HandlerCall) : List HandlerPtr → List Invocation
  | [] => []
  | h :: rest => ⟨h, call⟩ :: for_each_handler call rest

/-- The class `IntfMgrImpl`, reduced to the member the handlers use. -/
structure IntfMgrImpl where
  handlerList_ : List HandlerPtr
  deriving DecidableEq, Repr

namespace IntfMgrImpl

/-- The method `IntfMgrImpl::add_handler(intf_handler *)`, lines 177-181. -/
def add_handler (self : IntfMgrImpl) (handler : HandlerPtr) : IntfMgrImpl :=
  { self with handlerList_ := self.handlerList_ ++ [handler] }

/-- The method `IntfMgrImpl::remove_handler(intf_handler *)`, lines 183-186. -/
def remove_handler (self : IntfMgrImpl) (handler : HandlerPtr) : IntfMgrImpl :=
  { self with handlerList_ := list_remove handler self.handlerList_ }

/-- The method `IntfMgrImpl::handleInitialized`, lines 170-175. -/
def handleInitialized (self : IntfMgrImpl) : List Invocation :=
  for_each_handler HandlerCall.on_initialized self.handlerList_

/-- The method `IntfMgrImpl::on_create`, lines 196-202. -/
def on_create (self : IntfMgrImpl) (intf_id : intf_id_t) : List Invocation :=
  for_each_handler (HandlerCall.on_create intf_id) self.handlerList_

/-- The method `IntfMgrImpl::on_delete`, lines 204-210. -/
def on_delete (self : IntfMgrImpl) (intf_id : intf_id_t) : List Invocation :=
  for_each_handler (HandlerCall.on_delete intf_id) self.handlerList_

/-- The method `IntfMgrImpl::on_oper_status`, lines 211-218. -/
def on_oper_status (self : IntfMgrImpl) (intf_id : intf_id_t)
    (oper_status : IntfOperStatus) : List Invocation :=
  let status := convert oper_status
  for_each_handler (HandlerCall.on_oper_status intf_id status) self.handlerList_

/-- The method `IntfMgrImpl::on_admin_enabled`, lines 220-226. -/
def on_admin_enabled (self : IntfMgrImpl) (intf_id : intf_id_t) (enabled : Bool) :
    List Invocation :=
  for_each_handler (HandlerCall.on_admin_enabled intf_id enabled) self.handlerList_

end IntfMgrImpl

/-! ## The handler wrapper (`intf_handler`) -/

/-- The objects the handler code touches: the manager singleton returned by
`get_intf_mgr()`, the member `watching_all_intfs_` of the handler at each
address, and whether a handler object currently lives at that address. -/
structure World where
  impl : IntfMgrImpl
  watching_all_intfs_ : HandlerPtr → Bool
  live : HandlerPtr → Bool

/-- Assignment to one handler's boolean member. -/
def set_at (f : HandlerPtr → Bool) (h : HandlerPtr) (b : Bool) : HandlerPtr → Bool :=
  fun x => if x = h then b else f x

namespace intf_handler

/-- The constructor `intf_handler::intf_handler()`, line 311. -/
def ctor (w : World) (this : HandlerPtr) : World :=
  { w with
    watching_all_intfs_ := set_at w.watching_all_intfs_ this false
    live := set_at w.live this true }

/-- The destructor `intf_handler::~intf_handler()`, lines 315-323; the object
ceases to exist when it returns. -/
def dtor (w : World) (this : HandlerPtr) : World :=
  let w1 : World :=
    if w.watching_all_intfs_ this then { w with impl := w.impl.remove_handler this } else w
  { w1 with live := set_at w1.live this false }

/-- The method `intf_handler::watch_all_intfs(bool interest)`, lines 325-336. -/
def watch_all_intfs (w : World) (this : HandlerPtr) (interest : Bool) : World :=
  if w.watching_all_intfs_ this = interest then w
  else
    let impl := if interest then w.impl.add_handler this else w.impl.remove_handler this
    { w with impl := impl, watching_all_intfs_ := set_at w.watching_all_intfs_ this interest }

end intf_handler

/-- The handlers of `hs` call `watch_all_intfs(true)` one after another. -/
def register_all (w : World) (hs : List HandlerPtr) : World :=
  hs.foldl (fun acc h => intf_handler.watch_all_intfs acc h true) w

/-- A step taken by the owner of a handler object. -/
inductive HandlerOp where
  | construct (h : HandlerPtr)
  | watch_all_intfs (h : HandlerPtr) (interest : Bool)
  | destroy (h : HandlerPtr)
  deriving DecidableEq, Repr

/-- The handler object a step acts on. -/
def HandlerOp.target : HandlerOp → HandlerPtr
  | construct h => h
  | watch_all_intfs h _ => h
  | destroy h => h

/-- One step: a handler is constructed only at an address where none lives,
and a method or the destructor runs only on a living handler; any other step
is not a run of the program (`none`). -/
def HandlerOp.step (w : World) : HandlerOp → Option World
  | construct h => if w.live h then none else some (intf_handler.ctor w h)
  | watch_all_intfs h interest =>
      if w.live h then some (intf_handler.watch_all_intfs w h interest) else none
  | destroy h => if w.live h then some (intf_handler.dtor w h) else none

/-- A finite sequence of steps, from left to right. -/
def run_ops (w : World) : List HandlerOp → Option World
  | [] => some w
  | op :: rest =>
      match op.step w with
      | some w1 => run_ops w1 rest
      | none => none

/-- The world before any handler exists: empty registry, no object alive. -/
def World.initial : World where
  impl := ⟨[]⟩
  watching_all_intfs_ := fun _ => false
  live := fun _ => false

/-- A world with an empty registry in which exactly the handlers of `hs` are
alive, each with its flag false (as its constructor leaves it). -/
def World.fresh (hs : List HandlerPtr) : World where
  impl := ⟨[]⟩
  watching_all_intfs_ := fun _ => false
  live := fun h => decide (h ∈ hs)

/-- Every living handler occurs at most once in the handler list, and occurs
there exactly when its flag is set. -/
def single_registration (w : World) : Prop :=
  ∀ h : HandlerPtr, w.live h = true →
    w.impl.handlerList_.count h ≤ 1 ∧
      (h ∈ w.impl.handlerList_ ↔ w.watching_all_intfs_ h = true)

/-- The number of calls of a trace whose receiver is `h`. -/
def calls_on (h : HandlerPtr) (trace : List Invocation) : Nat :=
  trace.countP (fun inv => decide (inv.receiver = h))

/-- The strengthened invariant behind single registration: the handler list
has no duplicate and holds exactly the living handlers whose flag is set. -/
def registry_inv (w : World) : Prop :=
  w.impl.handlerList_.Nodup ∧
    ∀ x : HandlerPtr, x ∈ w.impl.handlerList_ ↔
      (w.live x = true ∧ w.watching_all_intfs_ x = true)

/-- An authority that also resolves the name "Tunnel1", to an id of tag 7,
which is none of the five tags tested by `intf_type`. -/
def tunnelAuthority : IntfIdAuthority where
  emptyIntfId := 0
  ethIntfIdType := 1
  vlanIntfIdType := 2
  mgmtIntfIdType := 3
  loopbackIntfIdType := 4
  poIntfIdType := 5
  null0IntfId := 6 * 2 ^ 25
  intfIdOfName := fun s =>
    if s = "Null0" then some (6 * 2 ^ 25)
    else if s = "Tunnel1" then some (7 * 2 ^ 25 + 1)
    else none

/-- An authority whose empty sentinel carries the Ethernet tag. -/
def taggedEmptyAuthority : IntfIdAuthority where
  emptyIntfId := 2 ^ 25
  ethIntfIdType := 1
  vlanIntfIdType := 2
  mgmtIntfIdType := 3
  loopbackIntfIdType := 4
  poIntfIdType := 5
  null0IntfId := 6 * 2 ^ 25
  intfIdOfName := fun s => if s = "Null0" then some (6 * 2 ^ 25) else none

/-- An authority that resolves "Null0" to the empty sentinel. -/
def null0EmptyAuthority : IntfIdAuthority where
  emptyIntfId := 0
  ethIntfIdType := 1
  vlanIntfIdType := 2
  mgmtIntfIdType := 3
  loopbackIntfIdType := 4
  poIntfIdType := 5
  null0IntfId := 0
  intfIdOfName := fun s => if s = "Null0" then some 0 else none

/-! ## The manager facade (`intf_mgr`) and the status directory -/

/-- Modelled from the spec: a status record `Interface::IntfStatus`
(`Intf/Intf.h`, not part of the sources); the code reads its operational
status only. -/
structure IntfStatus where
  operStatus : IntfOperStatus
  deriving DecidableEq, Repr

/-- Modelled from the spec: the directory service `Interface::AllIntfStatusDir`
(not part of the sources): the status records, each under the packed id of its
interface, held in key order.  The key order is taken to be the numeric order
of the packed ids. -/
structure AllIntfStatusDir where
  entries : List (Nat × IntfStatus)
  deriving DecidableEq, Repr

namespace AllIntfStatusDir

/-- The keys of the directory, in the order of its entries. -/
def keys (dir : AllIntfStatusDir) : List Nat :=
  dir.entries.map Prod.fst

/-- The entries of the directory are in strictly increasing key order. -/
def key_ordered (dir : AllIntfStatusDir) : Prop :=
  dir.keys.Sorted (fun a b => a < b)

instance (dir : AllIntfStatusDir) : Decidable dir.key_ordered :=
  inferInstanceAs (Decidable (dir.keys.Sorted (fun a b => a < b)))

/-- Modelled from the spec: the lookup `intfStatus(id)` of the directory
service; `none` is the null pointer returned when no record exists. -/
def intfStatus (dir : AllIntfStatusDir) (intfId : Nat) : Option IntfStatus :=
  (dir.entries.find? (fun e => e.1 == intfId)).map Prod.snd

/-- Modelled from the spec: the iterator `intfStatusIterator()` of the
directory service, as the keys it yields: all of them, in key order. -/
def intfStatusIterator (dir : AllIntfStatusDir) : List Nat :=
  dir.keys

/-- Modelled from the spec: the iterator `intfStatusIterator(bookmark)` of the
directory service, as the keys it yields: it starts at the first key strictly
after the position of `bookmark` in key order. -/
def intfStatusIteratorFrom (dir : AllIntfStatusDir) (bookmark : Nat) : List Nat :=
  dir.keys.dropWhile (fun k => decide (k ≤ bookmark))

end AllIntfStatusDir

/-- Modelled from the spec: the conversion `convert(intf_id_t)` to an
`Arnet::IntfId` (`EosSdk/Conversions.h`, not part of the sources): both wrap
the same packed value. -/
def convert_intf_id (id : intf_id_t) : Nat := id.intfId_

/-- What a run of `intf_foreach` did: the calls of the callback in order, each
with the id passed and the value returned, the final contents of `*arg`, and
the panic message if the run ended in a panic. -/
structure ForeachResult (σ : Type) where
  calls : List (intf_id_t × Bool)
  arg : σ
  panicked : Option String

/-- The loop of both overloads of `intf_foreach`, lines 254-256 and 268-271,
over the keys the iterator yields:
`for (...; iter && (*handler)((eos::intf_id_t)iter.key().intfId(), arg); ++iter) {}`.
The cast runs the constructor `intf_id_t(uint32_t)`.  The callback is a
function of the id and of the contents of `*arg`. -/
def foreach_loop {σ : Type} (env : IntfIdAuthority) (handler : intf_id_t → σ → Bool × σ) :
    List Nat → σ → ForeachResult σ
  | [], arg => ⟨[], arg, none⟩
  | key :: rest, arg =>
    match intf_id_t.of_uint32 env key with
    | Except.error msg => ⟨[], arg, some msg⟩
    | Except.ok id =>
      if (handler id arg).1 then
        let res := foreach_loop env handler rest (handler id arg).2
        ⟨(id, true) :: res.calls, res.arg, res.panicked⟩
      else
        ⟨[(id, false)], (handler id arg).2, none⟩

namespace intf_mgr

/-- The method `intf_mgr::intf_foreach(handler, arg)`, lines 251-257. -/
def intf_foreach {σ : Type} (env : IntfIdAuthority) (dir : AllIntfStatusDir)
    (handler : intf_id_t → σ → Bool × σ) (arg : σ) : ForeachResult σ :=
  foreach_loop env handler dir.intfStatusIterator arg

/-- The method `intf_mgr::intf_foreach(handler, arg, bookmark)`, lines 259-272. -/
def intf_foreach_bookmark {σ : Type} (env : IntfIdAuthority) (dir : AllIntfStatusDir)
    (handler : intf_id_t → σ → Bool × σ) (arg : σ) (bookmark : intf_id_t) :
    ForeachResult σ :=
  foreach_loop env handler (dir.intfStatusIteratorFrom (convert_intf_id bookmark)) arg

/-- The method `intf_mgr::exists`, lines 274-279. -/
def «exists» (dir : AllIntfStatusDir) (id : intf_id_t) : Bool :=
  (dir.intfStatus (convert_intf_id id)).isSome

/-- The method `intf_mgr::oper_status`, lines 289-298. -/
def oper_status (dir : AllIntfStatusDir) (id : intf_id_t) : Except String oper_status_t :=
  match dir.intfStatus (convert_intf_id id) with
  | none => Except.error "No matching interface"
  | some intfStatus => Except.ok (convert intfStatus.operStatus)

end intf_mgr

/-- The callback called on every id of a list in order, whatever it returns:
each id with the value returned for it. -/
def callback_run {σ : Type} (handler : intf_id_t → σ → Bool × σ) :
    List intf_id_t → σ → List (intf_id_t × Bool)
  | [], _ => []
  | id :: rest, arg => (id, (handler id arg).1) :: callback_run handler rest (handler id arg).2

/-- The shortest prefix that ends with the first entry whose returned value is
false, and the whole list when there is none. -/
def stop_at_first_false (l : List (intf_id_t × Bool)) : List (intf_id_t × Bool) :=
  l.takeWhile (fun c => c.2) ++ (l.dropWhile (fun c => c.2)).take 1

/-- Every key the iterator yields is accepted by `intf_id_t(uint32_t)`. -/
def keys_constructible (env : IntfIdAuthority) (keys : List Nat) : Prop :=
  ∀ k ∈ keys, (intf_id_t.mk (to_uint32 k)).intf_type env ≠ intf_type_t.INTF_TYPE_OTHER

instance (env : IntfIdAuthority) (keys : List Nat) : Decidable (keys_constructible env keys) :=
  inferInstanceAs (Decidable (∀ k ∈ keys,
    (intf_id_t.mk (to_uint32 k)).intf_type env ≠ intf_type_t.INTF_TYPE_OTHER))

/-- A sample directory: Ethernet 1 (up), Ethernet 2 (down), VLAN 1 (up). -/
def sampleDir : AllIntfStatusDir :=
  ⟨[(2 ^ 25 + 1, ⟨IntfOperStatus.intfOperUp_⟩), (2 ^ 25 + 2, ⟨IntfOperStatus.intfOperDown_⟩),
    (2 * 2 ^ 25 + 1, ⟨IntfOperStatus.intfOperUp_⟩)]⟩

/-- A directory that holds an Ethernet interface followed by one of tag 7. -/
def tunnelDir : AllIntfStatusDir :=
  ⟨[(2 ^ 25 + 1, ⟨IntfOperStatus.intfOperUp_⟩), (7 * 2 ^ 25 + 1, ⟨IntfOperStatus.intfOperUp_⟩)]⟩

/-! ## The state machine `IntfMgrSm` -/

/-- The class `IntfMgrSm` (`IntfMgrSm.h`, not part of the sources), reduced to
the collection of per-interface status state machines, as the keys it holds. -/
structure IntfMgrSm where
  intfStatusSm : List Nat
  deriving DecidableEq, Repr

namespace IntfMgrSm

/-- Modelled from the spec: the generated accessor `intfStatusSmIs`, which
makes sure a state machine exists for the interface of a status record. -/
def intfStatusSmIs (self : IntfMgrSm) (intfId : Nat) : IntfMgrSm :=
  if intfId ∈ self.intfStatusSm then self else ⟨self.intfStatusSm ++ [intfId]⟩

/-- Modelled from the spec: the generated accessor `intfStatusSmDel`, which
deletes the state machine of an interface. -/
def intfStatusSmDel (self : IntfMgrSm) (intfId : Nat) : IntfMgrSm :=
  ⟨self.intfStatusSm.filter (fun k => decide (k ≠ intfId))⟩

/-- The method `IntfMgrSm::handleIntfStatus(Arnet::IntfId)`, lines 417-431:
the new collection of state machines and the calls made on the handlers. -/
def handleIntfStatus (env : IntfIdAuthority) (dir : AllIntfStatusDir) (impl : IntfMgrImpl)
    (self : IntfMgrSm) (intfId : Nat) : Except String (IntfMgrSm × List Invocation) :=
  match intf_id_t.of_uint32 env intfId with
  | Except.error msg => Except.error msg
  | Except.ok intf_id =>
    match dir.intfStatus intfId with
    | some _ => Except.ok (self.intfStatusSmIs intfId, impl.on_create intf_id)
    | none => Except.ok (self.intfStatusSmDel intfId, impl.on_delete intf_id)

end IntfMgrSm

/-! ## Auxiliary lemmas -/

theorem list_remove_eq_filter (v : HandlerPtr) (l : List HandlerPtr) :
    list_remove v l = l.filter (fun x => decide (x ≠ v)) := by
  induction l with
  | nil => rfl
  | cons x rest ih =>
    by_cases hx : x = v
    · simp [list_remove, hx, ih]
    · simp [list_remove, hx, ih]

theorem for_each_handler_eq_map (call : HandlerCall) (l : List HandlerPtr) :
    for_each_handler call l = l.map (fun h => (⟨h, call⟩ : Invocation)) := by
  induction l with
  | nil => rfl
  | cons x rest ih => simp [for_each_handler, ih]

theorem not_mem_list_remove (v : HandlerPtr) (l : List HandlerPtr) :
    v ∉ list_remove v l := by
  simp [list_remove_eq_filter]

theorem list_remove_of_not_mem (v : HandlerPtr) (l : List HandlerPtr) (h : v ∉ l) :
    list_remove v l = l := by
  rw [list_remove_eq_filter, List.filter_eq_self]
  intro a ha
  have : a ≠ v := fun e => h (e ▸ ha)
  simpa using this

theorem mem_list_remove (v x : HandlerPtr) (l : List HandlerPtr) :
    x ∈ list_remove v l ↔ x ∈ l ∧ x ≠ v := by
  simp [list_remove_eq_filter]

theorem calls_on_for_each (h : HandlerPtr) (call : HandlerCall) (l : List HandlerPtr) :
    calls_on h (for_each_handler call l) = l.count h := by
  induction l with
  | nil => rfl
  | cons x rest ih =>
    unfold calls_on at ih ⊢
    by_cases hx : x = h
    · simp [for_each_handler, hx, ih]
    · have hx2 : ¬ ((x == h) = true) := by simpa using hx
      simp [for_each_handler, hx, ih, List.count_cons, hx2]

/-- Registering fresh, pairwise distinct handlers appends them in order and
sets exactly their flags. -/
theorem register_all_spec (hs : List HandlerPtr) :
    ∀ w : World, hs.Nodup → (∀ h ∈ hs, w.watching_all_intfs_ h = false) →
      (register_all w hs).impl.handlerList_ = w.impl.handlerList_ ++ hs ∧
      (register_all w hs).live = w.live ∧
      (∀ x, (register_all w hs).watching_all_intfs_ x =
        if x ∈ hs then true else w.watching_all_intfs_ x) := by
  induction hs with
  | nil => intro w _ _; simp [register_all]
  | cons a rest ih =>
    intro w hnd hfl
    have ha : w.watching_all_intfs_ a = false := hfl a (by simp)
    have hnd2 := List.nodup_cons.mp hnd
    have hstep : intf_handler.watch_all_intfs w a true =
        { w with impl := w.impl.add_handler a,
                 watching_all_intfs_ := set_at w.watching_all_intfs_ a true } := by
      simp [intf_handler.watch_all_intfs, ha]
    have hrec := ih (intf_handler.watch_all_intfs w a true) hnd2.2 (by
      intro h hh
      have hne : h ≠ a := fun e => hnd2.1 (e ▸ hh)
      rw [hstep]
      simp [set_at, hne, hfl h (by simp [hh])])
    have hunf : register_all w (a :: rest) =
        register_all (intf_handler.watch_all_intfs w a true) rest := rfl
    rw [hunf]
    obtain ⟨h1, h2, h3⟩ := hrec
    refine ⟨?_, ?_, ?_⟩
    · rw [h1, hstep]; simp [IntfMgrImpl.add_handler]
    · rw [h2, hstep]
    · intro x
      rw [h3 x, hstep]
      by_cases hxa : x = a
      · subst hxa; simp [set_at]
      · simp [set_at, hxa]

theorem list_remove_nodup (v : HandlerPtr) (l : List HandlerPtr) (h : l.Nodup) :
    (list_remove v l).Nodup := by
  rw [list_remove_eq_filter]; exact h.filter _

theorem registry_inv_ctor (w : World) (h : HandlerPtr) (hinv : registry_inv w)
    (hdead : w.live h = false) : registry_inv (intf_handler.ctor w h) := by
  obtain ⟨hnd, hmem⟩ := hinv
  refine ⟨hnd, ?_⟩
  intro x
  by_cases hx : x = h
  · subst hx
    have : x ∉ w.impl.handlerList_ := by rw [hmem]; simp [hdead]
    simp [intf_handler.ctor, set_at, this]
  · simpa [intf_handler.ctor, set_at, hx] using hmem x

theorem registry_inv_watch (w : World) (h : HandlerPtr) (b : Bool) (hinv : registry_inv w)
    (hlive : w.live h = true) : registry_inv (intf_handler.watch_all_intfs w h b) := by
  obtain ⟨hnd, hmem⟩ := hinv
  unfold intf_handler.watch_all_intfs
  by_cases hfb : w.watching_all_intfs_ h = b
  · simpa [hfb] using And.intro hnd hmem
  · rw [if_neg hfb]
    cases b with
    | true =>
      have hf : w.watching_all_intfs_ h = false := by simpa using hfb
      have hnot : h ∉ w.impl.handlerList_ := by rw [hmem]; simp [hf]
      refine ⟨?_, ?_⟩
      · simpa [IntfMgrImpl.add_handler, List.nodup_append, hnd] using hnot
      · intro x
        by_cases hx : x = h
        · subst hx; simp [IntfMgrImpl.add_handler, set_at, hlive]
        · simpa [IntfMgrImpl.add_handler, set_at, hx] using hmem x
    | false =>
      refine ⟨?_, ?_⟩
      · simpa [IntfMgrImpl.remove_handler] using list_remove_nodup h _ hnd
      · intro x
        by_cases hx : x = h
        · subst hx; simp [IntfMgrImpl.remove_handler, set_at, not_mem_list_remove]
        · simpa [IntfMgrImpl.remove_handler, set_at, hx, mem_list_remove] using hmem x

theorem registry_inv_dtor (w : World) (h : HandlerPtr) (hinv : registry_inv w) :
    registry_inv (intf_handler.dtor w h) := by
  obtain ⟨hnd, hmem⟩ := hinv
  unfold intf_handler.dtor
  by_cases hf : w.watching_all_intfs_ h = true
  · simp only [hf, if_true]
    refine ⟨?_, ?_⟩
    · simpa [IntfMgrImpl.remove_handler] using list_remove_nodup h _ hnd
    · intro x
      by_cases hx : x = h
      · subst hx; simp [IntfMgrImpl.remove_handler, set_at, not_mem_list_remove]
      · simpa [IntfMgrImpl.remove_handler, set_at, hx, mem_list_remove] using hmem x
  · have hf2 : w.watching_all_intfs_ h = false := by simpa using hf
    simp only [hf2, Bool.false_eq_true, if_false]
    refine ⟨hnd, ?_⟩
    intro x
    by_cases hx : x = h
    · subst hx
      have : x ∉ w.impl.handlerList_ := by rw [hmem]; simp [hf2]
      simp [set_at, this]
    · simpa [set_at, hx] using hmem x

theorem registry_inv_step (w w1 : World) (op : HandlerOp) (hinv : registry_inv w)
    (hstep : op.step w = some w1) : registry_inv w1 := by
  cases op with
  | construct h =>
    by_cases hl : w.live h = true
    · simp [HandlerOp.step, hl] at hstep
    · simp only [HandlerOp.step, hl, Bool.false_eq_true, if_false, Option.some.injEq] at hstep
      subst hstep
      exact registry_inv_ctor w h hinv (by simpa using hl)
  | watch_all_intfs h b =>
    by_cases hl : w.live h = true
    · simp only [HandlerOp.step, hl, if_true, Option.some.injEq] at hstep
      subst hstep
      exact registry_inv_watch w h b hinv hl
    · simp [HandlerOp.step, hl] at hstep
  | destroy h =>
    by_cases hl : w.live h = true
    · simp only [HandlerOp.step, hl, if_true, Option.some.injEq] at hstep
      subst hstep
      exact registry_inv_dtor w h hinv
    · simp [HandlerOp.step, hl] at hstep

theorem registry_inv_run (ops : List HandlerOp) :
    ∀ w w1 : World, registry_inv w → run_ops w ops = some w1 → registry_inv w1 := by
  induction ops with
  | nil =>
    intro w w1 hinv hrun
    simp only [run_ops, Option.some.injEq] at hrun
    subst hrun; exact hinv
  | cons op rest ih =>
    intro w w1 hinv hrun
    unfold run_ops at hrun
    cases hs : op.step w with
    | none => simp [hs] at hrun
    | some w2 =>
      simp only [hs] at hrun
      exact ih w2 w1 (registry_inv_step w w2 op hinv hs) hrun

theorem single_registration_of_inv (w : World) (hinv : registry_inv w) :
    single_registration w := by
  intro h hl
  refine ⟨?_, ?_⟩
  · exact List.nodup_iff_count_le_one.mp hinv.1 h
  · rw [hinv.2 h]; simp [hl]

/-- A step on another handler does not put `h` into the handler list. -/
theorem not_mem_step (w w1 : World) (op : HandlerOp) (h : HandlerPtr)
    (hne : op.target ≠ h) (hstep : op.step w = some w1)
    (hnot : h ∉ w.impl.handlerList_) : h ∉ w1.impl.handlerList_ := by
  cases op with
  | construct t =>
    by_cases hl : w.live t = true
    · simp [HandlerOp.step, hl] at hstep
    · simp only [HandlerOp.step, hl, Bool.false_eq_true, if_false, Option.some.injEq] at hstep
      subst hstep
      simpa [intf_handler.ctor] using hnot
  | watch_all_intfs t b =>
    have hne2 : h ≠ t := fun e => hne (by simp [HandlerOp.target, e])
    by_cases hl : w.live t = true
    · simp only [HandlerOp.step, hl, if_true, Option.some.injEq] at hstep
      subst hstep
      unfold intf_handler.watch_all_intfs
      by_cases hfb : w.watching_all_intfs_ t = b
      · simpa [hfb] using hnot
      · rw [if_neg hfb]
        cases b with
        | true => simp [IntfMgrImpl.add_handler, hnot, hne2]
        | false => simp [IntfMgrImpl.remove_handler, mem_list_remove, hnot]
    · simp [HandlerOp.step, hl] at hstep
  | destroy t =>
    by_cases hl : w.live t = true
    · simp only [HandlerOp.step, hl, if_true, Option.some.injEq] at hstep
      subst hstep
      unfold intf_handler.dtor
      by_cases hf : w.watching_all_intfs_ t = true
      · simp [hf, IntfMgrImpl.remove_handler, mem_list_remove, hnot]
      · have hf2 : w.watching_all_intfs_ t = false := by simpa using hf
        simpa [hf2] using hnot
    · simp [HandlerOp.step, hl] at hstep

theorem not_mem_run (ops : List HandlerOp) (h : HandlerPtr) :
    ∀ w w1 : World, (∀ op ∈ ops, op.target ≠ h) → run_ops w ops = some w1 →
      h ∉ w.impl.handlerList_ → h ∉ w1.impl.handlerList_ := by
  induction ops with
  | nil =>
    intro w w1 _ hrun hnot
    simp only [run_ops, Option.some.injEq] at hrun
    subst hrun; exact hnot
  | cons op rest ih =>
    intro w w1 hall hrun hnot
    unfold run_ops at hrun
    cases hs : op.step w with
    | none => simp [hs] at hrun
    | some w2 =>
      simp only [hs] at hrun
      exact ih w2 w1 (fun o ho => hall o (by simp [ho])) hrun
        (not_mem_step w w2 op h (hall op (by simp)) hs hnot)

/-- The classification by cases, in the order of the tests of `intf_type`. -/
theorem intf_type_cases (env : IntfIdAuthority) (x : intf_id_t) :
    (type_tag x.intfId_ = env.ethIntfIdType →
        x.intf_type env = intf_type_t.INTF_TYPE_ETH) ∧
      (type_tag x.intfId_ ≠ env.ethIntfIdType → type_tag x.intfId_ = env.vlanIntfIdType →
        x.intf_type env = intf_type_t.INTF_TYPE_VLAN) ∧
      (type_tag x.intfId_ ≠ env.ethIntfIdType → type_tag x.intfId_ ≠ env.vlanIntfIdType →
        type_tag x.intfId_ = env.mgmtIntfIdType →
        x.intf_type env = intf_type_t.INTF_TYPE_MANAGEMENT) ∧
      (type_tag x.intfId_ ≠ env.ethIntfIdType → type_tag x.intfId_ ≠ env.vlanIntfIdType →
        type_tag x.intfId_ ≠ env.mgmtIntfIdType →
        type_tag x.intfId_ = env.loopbackIntfIdType →
        x.intf_type env = intf_type_t.INTF_TYPE_LOOPBACK) ∧
      (type_tag x.intfId_ ≠ env.ethIntfIdType → type_tag x.intfId_ ≠ env.vlanIntfIdType →
        type_tag x.intfId_ ≠ env.mgmtIntfIdType →
        type_tag x.intfId_ ≠ env.loopbackIntfIdType →
        type_tag x.intfId_ = env.poIntfIdType →
        x.intf_type env = intf_type_t.INTF_TYPE_LAG) ∧
      (¬ env.recognized (type_tag x.intfId_) → x.is_null0 env = true →
        x.intf_type env = intf_type_t.INTF_TYPE_NULL0) ∧
      (¬ env.recognized (type_tag x.intfId_) → x.is_null0 env = false →
        x.intfId_ = empty_intf_id env → x.intf_type env = intf_type_t.INTF_TYPE_NULL) ∧
      (¬ env.recognized (type_tag x.intfId_) → x.is_null0 env = false →
        x.intfId_ ≠ empty_intf_id env → x.intf_type env = intf_type_t.INTF_TYPE_OTHER) := by
  unfold type_tag IntfIdAuthority.recognized
  refine ⟨?_, ?_, ?_, ?_, ?_, ?_, ?_, ?_⟩
  · intro h
    simp only [intf_id_t.intf_type]; rw [if_pos h]
  · intro h1 h
    simp only [intf_id_t.intf_type]; rw [if_neg h1, if_pos h]
  · intro h1 h2 h
    simp only [intf_id_t.intf_type]; rw [if_neg h1, if_neg h2, if_pos h]
  · intro h1 h2 h3 h
    simp only [intf_id_t.intf_type]; rw [if_neg h1, if_neg h2, if_neg h3, if_pos h]
  · intro h1 h2 h3 h4 h
    simp only [intf_id_t.intf_type]
    rw [if_neg h1, if_neg h2, if_neg h3, if_neg h4, if_pos h]
  · intro hr hn
    simp only [not_or] at hr
    obtain ⟨h1, h2, h3, h4, h5⟩ := hr
    simp only [intf_id_t.intf_type]
    rw [if_neg h1, if_neg h2, if_neg h3, if_neg h4, if_neg h5, if_pos hn]
  · intro hr hn he
    simp only [not_or] at hr
    obtain ⟨h1, h2, h3, h4, h5⟩ := hr
    simp only [intf_id_t.intf_type]
    rw [if_neg h1, if_neg h2, if_neg h3, if_neg h4, if_neg h5, if_neg (by simp [hn]),
      if_pos he]
  · intro hr hn he
    simp only [not_or] at hr
    obtain ⟨h1, h2, h3, h4, h5⟩ := hr
    simp only [intf_id_t.intf_type]
    rw [if_neg h1, if_neg h2, if_neg h3, if_neg h4, if_neg h5, if_neg (by simp [hn]),
      if_neg he]

/-- A value with a recognized tag is classified as one of the five concrete
types. -/
theorem intf_type_of_recognized (env : IntfIdAuthority) (x : intf_id_t)
    (h : env.recognized (type_tag x.intfId_)) :
    x.intf_type env = intf_type_t.INTF_TYPE_ETH ∨
      x.intf_type env = intf_type_t.INTF_TYPE_VLAN ∨
      x.intf_type env = intf_type_t.INTF_TYPE_MANAGEMENT ∨
      x.intf_type env = intf_type_t.INTF_TYPE_LOOPBACK ∨
      x.intf_type env = intf_type_t.INTF_TYPE_LAG := by
  obtain ⟨c1, c2, c3, c4, c5, -, -, -⟩ := intf_type_cases env x
  by_cases h1 : type_tag x.intfId_ = env.ethIntfIdType
  · exact Or.inl (c1 h1)
  by_cases h2 : type_tag x.intfId_ = env.vlanIntfIdType
  · exact Or.inr (Or.inl (c2 h1 h2))
  by_cases h3 : type_tag x.intfId_ = env.mgmtIntfIdType
  · exact Or.inr (Or.inr (Or.inl (c3 h1 h2 h3)))
  by_cases h4 : type_tag x.intfId_ = env.loopbackIntfIdType
  · exact Or.inr (Or.inr (Or.inr (Or.inl (c4 h1 h2 h3 h4))))
  by_cases h5 : type_tag x.intfId_ = env.poIntfIdType
  · exact Or.inr (Or.inr (Or.inr (Or.inr (c5 h1 h2 h3 h4 h5))))
  · exact absurd h (by simp [IntfIdAuthority.recognized, h1, h2, h3, h4, h5])

/-- The default constructor never yields an id classified as OTHER. -/
theorem intf_type_empty_ne_other (env : IntfIdAuthority) :
    (intf_id_t.empty env).intf_type env ≠ intf_type_t.INTF_TYPE_OTHER := by
  by_cases hr : env.recognized (type_tag (intf_id_t.empty env).intfId_)
  · rcases intf_type_of_recognized env _ hr with h | h | h | h | h <;> simp [h]
  · obtain ⟨-, -, -, -, -, c6, c7, -⟩ := intf_type_cases env (intf_id_t.empty env)
    cases hn : (intf_id_t.empty env).is_null0 env with
    | true => simp [c6 hr hn]
    | false => simp [c7 hr hn rfl]

/-- The constructor from a raw value never returns an id classified as OTHER. -/
theorem of_uint32_ok_ne_other (env : IntfIdAuthority) (v : Nat) (x : intf_id_t)
    (h : intf_id_t.of_uint32 env v = Except.ok x) :
    x.intf_type env ≠ intf_type_t.INTF_TYPE_OTHER := by
  unfold intf_id_t.of_uint32 at h
  by_cases ho : (intf_id_t.mk (to_uint32 v)).intf_type env = intf_type_t.INTF_TYPE_OTHER
  · simp [ho] at h
  · simp only [ho, if_false, Except.ok.injEq] at h
    subst h; exact ho

/-- A key has a status record exactly when it is one of the keys of the
directory. -/
theorem intfStatus_isSome_iff (dir : AllIntfStatusDir) (key : Nat) :
    (dir.intfStatus key).isSome = true ↔ key ∈ dir.keys := by
  unfold AllIntfStatusDir.intfStatus AllIntfStatusDir.keys
  induction dir.entries with
  | nil => simp
  | cons e rest ih =>
    by_cases he : e.1 = key
    · simp [List.find?_cons, he]
    · have he2 : ¬ key = e.1 := fun h => he h.symm
      have he3 : (e.1 == key) = false := by simpa using he
      simp only [List.find?_cons, he3, List.map_cons, List.mem_cons, he2, false_or]
      exact ih

/-- A fresh world satisfies the registry invariant. -/
theorem registry_inv_fresh (hs : List HandlerPtr) : registry_inv (World.fresh hs) := by
  refine ⟨List.nodup_nil, ?_⟩
  intro x
  simp [World.fresh]

/-- The constructor from a raw value accepts a key that is not classified as
OTHER and stores its 32-bit value. -/
theorem of_uint32_of_ne_other (env : IntfIdAuthority) (k : Nat)
    (h : (intf_id_t.mk (to_uint32 k)).intf_type env ≠ intf_type_t.INTF_TYPE_OTHER) :
    intf_id_t.of_uint32 env k = Except.ok ⟨to_uint32 k⟩ := by
  simp [intf_id_t.of_uint32, h]

/-- An id returned by the constructor from a raw value is that value, reduced
to 32 bits. -/
theorem of_uint32_ok_eq (env : IntfIdAuthority) (k : Nat) (x : intf_id_t)
    (h : intf_id_t.of_uint32 env k = Except.ok x) : x = ⟨to_uint32 k⟩ := by
  unfold intf_id_t.of_uint32 at h
  by_cases ho : (intf_id_t.mk (to_uint32 k)).intf_type env = intf_type_t.INTF_TYPE_OTHER
  · simp [ho] at h
  · simp only [ho, if_false, Except.ok.injEq] at h
    exact h.symm

theorem stop_at_first_false_cons (c : intf_id_t × Bool) (l : List (intf_id_t × Bool)) :
    stop_at_first_false (c :: l) = if c.2 then c :: stop_at_first_false l else [c] := by
  cases hc : c.2 with
  | true => simp [stop_at_first_false, List.takeWhile_cons, List.dropWhile_cons, hc]
  | false => simp [stop_at_first_false, List.takeWhile_cons, List.dropWhile_cons, hc]

theorem stop_at_first_false_initial (l : List (intf_id_t × Bool)) :
    stop_at_first_false l <+: l := by
  induction l with
  | nil => simp [stop_at_first_false]
  | cons c rest ih =>
    rw [stop_at_first_false_cons]
    cases hc : c.2 with
    | true => simpa using (List.prefix_cons_inj c).mpr ih
    | false => simp

theorem stop_at_first_false_dropLast (l : List (intf_id_t × Bool)) :
    ∀ c ∈ (stop_at_first_false l).dropLast, c.2 = true := by
  induction l with
  | nil => simp [stop_at_first_false]
  | cons c rest ih =>
    rw [stop_at_first_false_cons]
    cases hc : c.2 with
    | false => simp
    | true =>
      simp only [if_true]
      intro d hd
      cases hs : stop_at_first_false rest with
      | nil => simp [hs] at hd
      | cons e tl =>
        rw [hs, List.dropLast_cons₂, List.mem_cons] at hd
        rcases hd with rfl | hd
        · exact hc
        · exact ih d (by rw [hs]; exact hd)

theorem stop_at_first_false_end (l : List (intf_id_t × Bool)) :
    stop_at_first_false l = l ∨
      ∃ c, (stop_at_first_false l).getLast? = some c ∧ c.2 = false := by
  induction l with
  | nil => left; simp [stop_at_first_false]
  | cons c rest ih =>
    rw [stop_at_first_false_cons]
    cases hc : c.2 with
    | false => right; exact ⟨c, by simp, hc⟩
    | true =>
      simp only [if_true]
      rcases ih with h | ⟨d, hd, hd2⟩
      · left; rw [h]
      · right
        refine ⟨d, ?_, hd2⟩
        cases hs : stop_at_first_false rest with
        | nil => simp [hs] at hd
        | cons e tl => rw [hs] at hd; rw [List.getLast?_cons_cons]; exact hd

/-- With constructible keys the loop of `intf_foreach` does not panic and
calls the callback on the shortest stopping prefix of the ids. -/
theorem foreach_loop_of_constructible {σ : Type} (env : IntfIdAuthority)
    (handler : intf_id_t → σ → Bool × σ) (keys : List Nat) :
    ∀ arg : σ, keys_constructible env keys →
      (foreach_loop env handler keys arg).calls =
          stop_at_first_false
            (callback_run handler (keys.map (fun k => intf_id_t.mk (to_uint32 k))) arg) ∧
        (foreach_loop env handler keys arg).panicked = none := by
  induction keys with
  | nil => intro arg _; simp [foreach_loop, callback_run, stop_at_first_false]
  | cons k rest ih =>
    intro arg hv
    have hk := of_uint32_of_ne_other env k (hv k (by simp))
    have hrest : keys_constructible env rest := fun a ha => hv a (by simp [ha])
    simp only [foreach_loop, hk, List.map_cons, callback_run, stop_at_first_false_cons]
    cases hr : (handler ⟨to_uint32 k⟩ arg).1 with
    | true =>
      obtain ⟨h1, h2⟩ := ih (handler ⟨to_uint32 k⟩ arg).2 hrest
      simp [h1, h2]
    | false => simp

/-- The ids passed to the callback are a prefix of the ids of the keys, in
order, whether the loop panics or not. -/
theorem foreach_loop_calls_initial {σ : Type} (env : IntfIdAuthority)
    (handler : intf_id_t → σ → Bool × σ) (keys : List Nat) :
    ∀ arg : σ, (foreach_loop env handler keys arg).calls.map Prod.fst <+:
      keys.map (fun k => intf_id_t.mk (to_uint32 k)) := by
  induction keys with
  | nil => intro arg; simp [foreach_loop]
  | cons k rest ih =>
    intro arg
    unfold foreach_loop
    cases hk : intf_id_t.of_uint32 env k with
    | error msg => simp
    | ok id =>
      have hid := of_uint32_ok_eq env k id hk
      subst hid
      by_cases hr : (handler ⟨to_uint32 k⟩ arg).1 = true
      · simp only [if_pos hr]
        simpa using (List.prefix_cons_inj (intf_id_t.mk (to_uint32 k))).mpr
          (ih (handler ⟨to_uint32 k⟩ arg).2)
      · simp only [if_neg hr]
        simp

/-- In a key-ordered list, the keys left after dropping those up to the
bookmark are the keys strictly after the bookmark. -/
theorem dropWhile_le_eq_filter (b : Nat) (keys : List Nat)
    (h : keys.Sorted (fun x y => x < y)) :
    keys.dropWhile (fun k => decide (k ≤ b)) = keys.filter (fun k => decide (b < k)) := by
  induction keys with
  | nil => rfl
  | cons k rest ih =>
    have hs := List.sorted_cons.mp h
    by_cases hk : k ≤ b
    · have hk2 : ¬ b < k := Nat.not_lt.mpr hk
      simp [List.dropWhile_cons, List.filter_cons, hk, hk2, ih hs.2]
    · have hk2 : b < k := Nat.lt_of_not_le hk
      have hall : rest.filter (fun x => decide (b < x)) = rest := by
        rw [List.filter_eq_self]
        intro a ha
        have : b < a := Nat.lt_trans hk2 (hs.1 a ha)
        simpa using this
      simp [List.dropWhile_cons, List.filter_cons, hk, hk2, hall]

/-- In a key-ordered list no key comes after the last one. -/
theorem dropWhile_le_last (b : Nat) (keys : List Nat)
    (h : keys.Sorted (fun x y => x < y)) (hlast : keys.getLast? = some b) :
    keys.dropWhile (fun k => decide (k ≤ b)) = [] := by
  obtain ⟨ys, rfl⟩ := List.getLast?_eq_some_iff.mp hlast
  rw [List.dropWhile_eq_nil_iff]
  intro x hx
  have hp := List.pairwise_append.mp h
  rcases List.mem_append.mp hx with hx | hx
  · have : x < b := hp.2.2 x hx b (by simp)
    simpa using Nat.le_of_lt this
  · have : x = b := by simpa using hx
    simp [this]

/-! ## Registration order and delivery -/

/-- C1: pairwise distinct handlers whose flag is false and that call
`watch_all_intfs(true)` one after another on an empty registry are then
notified by `on_create(id)` in registration order: the trace of calls is
exactly one `on_create(id)` per handler, in the order of registration, so each
of them is called once and no other handler is called. -/
theorem C1_on_create_in_registration_order (w : World) (hs : List HandlerPtr)
    (intf_id : intf_id_t) (hempty : w.impl.handlerList_ = []) (hnodup : hs.Nodup)
    (hflag : ∀ h ∈ hs, w.watching_all_intfs_ h = false) :
    (register_all w hs).impl.on_create intf_id =
        hs.map (fun h => (⟨h, HandlerCall.on_create intf_id⟩ : Invocation)) ∧
      (∀ h ∈ hs, calls_on h ((register_all w hs).impl.on_create intf_id) = 1) ∧
      (∀ h, h ∉ hs → calls_on h ((register_all w hs).impl.on_create intf_id) = 0) := by
  have hl := (register_all_spec hs w hnodup hflag).1
  rw [hempty, List.nil_append] at hl
  refine ⟨?_, ?_, ?_⟩
  · simp [IntfMgrImpl.on_create, hl, for_each_handler_eq_map]
  · intro h hh
    simp only [IntfMgrImpl.on_create, hl, calls_on_for_each]
    exact List.count_eq_one_of_mem hnodup hh
  · intro h hh
    simp only [IntfMgrImpl.on_create, hl, calls_on_for_each]
    exact List.count_eq_zero_of_not_mem hh

/-- Witness of C1: handlers 1, 2, 3 registered in that order. -/
theorem C1_on_create_in_registration_order_witness :
    (register_all World.initial [1, 2, 3]).impl.on_create ⟨7⟩ =
      [⟨1, HandlerCall.on_create ⟨7⟩⟩, ⟨2, HandlerCall.on_create ⟨7⟩⟩,
        ⟨3, HandlerCall.on_create ⟨7⟩⟩] :=
  (C1_on_create_in_registration_order World.initial [1, 2, 3] ⟨7⟩ rfl (by decide)
    (fun _ _ => rfl)).1

/-- C2: when a registered handler `h` (flag true) is destroyed, its destructor
deletes it from the handler list and keeps the other handlers in their
original relative order; after any later steps taken on other handlers, `h`
is still absent, so `on_create`, `on_delete`, `on_oper_status`,
`on_admin_enabled` and `handleInitialized` make no call on `h`. -/
theorem C2_destructor_unregisters (w : World) (h : HandlerPtr)
    (hreg : w.watching_all_intfs_ h = true) :
    h ∉ (intf_handler.dtor w h).impl.handlerList_ ∧
      (intf_handler.dtor w h).impl.handlerList_ =
        w.impl.handlerList_.filter (fun x => decide (x ≠ h)) ∧
      (∀ (ops : List HandlerOp) (w1 : World), (∀ op ∈ ops, op.target ≠ h) →
        run_ops (intf_handler.dtor w h) ops = some w1 →
          h ∉ w1.impl.handlerList_ ∧
          (∀ id, calls_on h (w1.impl.on_create id) = 0) ∧
          (∀ id, calls_on h (w1.impl.on_delete id) = 0) ∧
          (∀ id st, calls_on h (w1.impl.on_oper_status id st) = 0) ∧
          (∀ id en, calls_on h (w1.impl.on_admin_enabled id en) = 0) ∧
          calls_on h w1.impl.handleInitialized = 0) := by
  have hlist : (intf_handler.dtor w h).impl.handlerList_ =
      list_remove h w.impl.handlerList_ := by
    simp [intf_handler.dtor, hreg, IntfMgrImpl.remove_handler]
  have hnot : h ∉ (intf_handler.dtor w h).impl.handlerList_ := by
    rw [hlist]; exact not_mem_list_remove h _
  refine ⟨hnot, ?_, ?_⟩
  · rw [hlist, list_remove_eq_filter]
  · intro ops w1 hall hrun
    have hn1 := not_mem_run ops h _ w1 hall hrun hnot
    have hc : w1.impl.handlerList_.count h = 0 := List.count_eq_zero_of_not_mem hn1
    refine ⟨hn1, ?_, ?_, ?_, ?_, ?_⟩
    · intro id; simp only [IntfMgrImpl.on_create, calls_on_for_each, hc]
    · intro id; simp only [IntfMgrImpl.on_delete, calls_on_for_each, hc]
    · intro id st; simp only [IntfMgrImpl.on_oper_status, calls_on_for_each, hc]
    · intro id en; simp only [IntfMgrImpl.on_admin_enabled, calls_on_for_each, hc]
    · simp only [IntfMgrImpl.handleInitialized, calls_on_for_each, hc]

/-- Witness of C2: handlers 1, 2, 3 are registered and handler 2 is
destroyed; the list that remains is 1, 3. -/
theorem C2_destructor_unregisters_witness :
    (register_all (World.fresh [1, 2, 3]) [1, 2, 3]).watching_all_intfs_ 2 = true ∧
      (intf_handler.dtor (register_all (World.fresh [1, 2, 3]) [1, 2, 3]) 2).impl.handlerList_ =
        [1, 3] :=
  ⟨rfl, (C2_destructor_unregisters (register_all (World.fresh [1, 2, 3]) [1, 2, 3]) 2 rfl).2.1⟩

/-- C3: starting from an empty registry in which every living handler has its
flag false, after any finite sequence of constructions, `watch_all_intfs(true)`,
`watch_all_intfs(false)` and destructions, every living handler occurs in the
handler list at most once, and occurs there if and only if its flag is true. -/
theorem C3_single_registration_invariant (w0 w : World) (ops : List HandlerOp)
    (hempty : w0.impl.handlerList_ = [])
    (hflags : ∀ h, w0.live h = true → w0.watching_all_intfs_ h = false)
    (hrun : run_ops w0 ops = some w) :
    ∀ h : HandlerPtr, w.live h = true →
      w.impl.handlerList_.count h ≤ 1 ∧
        (h ∈ w.impl.handlerList_ ↔ w.watching_all_intfs_ h = true) := by
  have h0 : registry_inv w0 := by
    refine ⟨by simp [hempty], ?_⟩
    intro x
    simp only [hempty, List.not_mem_nil, false_iff, not_and]
    intro hl
    simp [hflags x hl]
  exact single_registration_of_inv w (registry_inv_run ops w0 w h0 hrun)

/-- Witness of C3: two handlers toggle their interest, one of them twice, and
one is destroyed and constructed again. -/
theorem C3_single_registration_invariant_witness :
    single_registration
      (intf_handler.ctor (intf_handler.dtor (intf_handler.watch_all_intfs
        (intf_handler.watch_all_intfs (intf_handler.watch_all_intfs (World.fresh [1, 2])
          1 true) 2 true) 1 true) 2) 2) :=
  C3_single_registration_invariant (World.fresh [1, 2]) _
    [HandlerOp.watch_all_intfs 1 true, HandlerOp.watch_all_intfs 2 true,
      HandlerOp.watch_all_intfs 1 true, HandlerOp.destroy 2, HandlerOp.construct 2]
    rfl (fun _ _ => rfl) rfl

/-- C4: after pairwise distinct handlers registered on an empty registry and
one of them, `h2`, called `watch_all_intfs(false)`, each of the four
notifications is delivered to the remaining handlers in their registration
order, once to each of them, and never to `h2`. -/
theorem C4_unregistered_handler_skipped (w : World) (hs : List HandlerPtr)
    (h2 : HandlerPtr) (hempty : w.impl.handlerList_ = []) (hnodup : hs.Nodup)
    (hflag : ∀ h ∈ hs, w.watching_all_intfs_ h = false) (hmem : h2 ∈ hs) :
    (∀ id, (intf_handler.watch_all_intfs (register_all w hs) h2 false).impl.on_create id =
        (hs.filter (fun x => decide (x ≠ h2))).map
          (fun h => (⟨h, HandlerCall.on_create id⟩ : Invocation))) ∧
      (∀ id, (intf_handler.watch_all_intfs (register_all w hs) h2 false).impl.on_delete id =
        (hs.filter (fun x => decide (x ≠ h2))).map
          (fun h => (⟨h, HandlerCall.on_delete id⟩ : Invocation))) ∧
      (∀ id st,
        (intf_handler.watch_all_intfs (register_all w hs) h2 false).impl.on_oper_status id st =
          (hs.filter (fun x => decide (x ≠ h2))).map
            (fun h => (⟨h, HandlerCall.on_oper_status id (convert st)⟩ : Invocation))) ∧
      (∀ id en,
        (intf_handler.watch_all_intfs (register_all w hs) h2 false).impl.on_admin_enabled id en =
          (hs.filter (fun x => decide (x ≠ h2))).map
            (fun h => (⟨h, HandlerCall.on_admin_enabled id en⟩ : Invocation))) ∧
      (∀ h id,
        calls_on h ((intf_handler.watch_all_intfs (register_all w hs) h2 false).impl.on_create
          id) = if h ∈ hs ∧ h ≠ h2 then 1 else 0) ∧
      (∀ h id,
        calls_on h ((intf_handler.watch_all_intfs (register_all w hs) h2 false).impl.on_delete
          id) = if h ∈ hs ∧ h ≠ h2 then 1 else 0) ∧
      (∀ h id st,
        calls_on h
          ((intf_handler.watch_all_intfs (register_all w hs) h2 false).impl.on_oper_status
            id st) = if h ∈ hs ∧ h ≠ h2 then 1 else 0) ∧
      (∀ h id en,
        calls_on h
          ((intf_handler.watch_all_intfs (register_all w hs) h2 false).impl.on_admin_enabled
            id en) = if h ∈ hs ∧ h ≠ h2 then 1 else 0) := by
  obtain ⟨hl, _, hf⟩ := register_all_spec hs w hnodup hflag
  rw [hempty, List.nil_append] at hl
  have hf2 : (register_all w hs).watching_all_intfs_ h2 = true := by rw [hf h2]; simp [hmem]
  have hlist : (intf_handler.watch_all_intfs (register_all w hs) h2 false).impl.handlerList_ =
      hs.filter (fun x => decide (x ≠ h2)) := by
    simp [intf_handler.watch_all_intfs, hf2, IntfMgrImpl.remove_handler, hl,
      list_remove_eq_filter]
  have hcount : ∀ h, (hs.filter (fun x => decide (x ≠ h2))).count h =
      if h ∈ hs ∧ h ≠ h2 then 1 else 0 := by
    intro h
    by_cases hc : h ∈ hs ∧ h ≠ h2
    · rw [if_pos hc]
      exact List.count_eq_one_of_mem (hnodup.filter _) (by simp [hc.1, hc.2])
    · rw [if_neg hc]
      apply List.count_eq_zero_of_not_mem
      simpa using hc
  refine ⟨?_, ?_, ?_, ?_, ?_, ?_, ?_, ?_⟩
  · intro id; simp only [IntfMgrImpl.on_create, hlist, for_each_handler_eq_map]
  · intro id; simp only [IntfMgrImpl.on_delete, hlist, for_each_handler_eq_map]
  · intro id st; simp only [IntfMgrImpl.on_oper_status, hlist, for_each_handler_eq_map]
  · intro id en; simp only [IntfMgrImpl.on_admin_enabled, hlist, for_each_handler_eq_map]
  · intro h id; simp only [IntfMgrImpl.on_create, hlist, calls_on_for_each, hcount]
  · intro h id; simp only [IntfMgrImpl.on_delete, hlist, calls_on_for_each, hcount]
  · intro h id st; simp only [IntfMgrImpl.on_oper_status, hlist, calls_on_for_each, hcount]
  · intro h id en; simp only [IntfMgrImpl.on_admin_enabled, hlist, calls_on_for_each, hcount]

/-- Witness of C4: handlers 1, 2, 3 register, handler 2 unregisters, and a
create notification reaches 1 and then 3 only. -/
theorem C4_unregistered_handler_skipped_witness :
    (intf_handler.watch_all_intfs (register_all World.initial [1, 2, 3]) 2 false).impl.on_create
        ⟨7⟩ = [⟨1, HandlerCall.on_create ⟨7⟩⟩, ⟨3, HandlerCall.on_create ⟨7⟩⟩] :=
  (C4_unregistered_handler_skipped World.initial [1, 2, 3] 2 rfl (by decide)
    (fun _ _ => rfl) (by decide)).1 ⟨7⟩

/-- C5: `watch_all_intfs(b)` called twice in a row on a handler leaves the
registry and the flags exactly as one call does, in every state; and after
`watch_all_intfs(true)` twice the handler has been appended once if its flag
was false and not at all if it was true. -/
theorem C5_watch_all_intfs_idempotent (w : World) (h : HandlerPtr) (b : Bool) :
    intf_handler.watch_all_intfs (intf_handler.watch_all_intfs w h b) h b =
        intf_handler.watch_all_intfs w h b ∧
      (intf_handler.watch_all_intfs (intf_handler.watch_all_intfs w h true) h
          true).impl.handlerList_ =
        w.impl.handlerList_ ++ (if w.watching_all_intfs_ h = true then [] else [h]) := by
  have key : ∀ c : Bool,
      intf_handler.watch_all_intfs (intf_handler.watch_all_intfs w h c) h c =
        intf_handler.watch_all_intfs w h c := by
    intro c
    by_cases hfb : w.watching_all_intfs_ h = c
    · simp [intf_handler.watch_all_intfs, hfb]
    · have h1 : (intf_handler.watch_all_intfs w h c).watching_all_intfs_ h = c := by
        simp [intf_handler.watch_all_intfs, hfb, set_at]
      generalize intf_handler.watch_all_intfs w h c = w1 at h1
      simp [intf_handler.watch_all_intfs, h1]
  refine ⟨key b, ?_⟩
  rw [key true]
  by_cases hf : w.watching_all_intfs_ h = true
  · simp [intf_handler.watch_all_intfs, hf]
  · simp [intf_handler.watch_all_intfs, hf, IntfMgrImpl.add_handler]

/-- C6: `remove_handler(h)` yields the handler list with every occurrence of
`h` deleted and all other entries kept, in their original relative order;
when `h` does not occur in the list nothing changes. -/
theorem C6_remove_handler_deletes_all (impl : IntfMgrImpl) (h : HandlerPtr) :
    (impl.remove_handler h).handlerList_ =
        impl.handlerList_.filter (fun x => decide (x ≠ h)) ∧
      h ∉ (impl.remove_handler h).handlerList_ ∧
      (∀ x, x ≠ h → (impl.remove_handler h).handlerList_.count x = impl.handlerList_.count x) ∧
      List.Sublist (impl.remove_handler h).handlerList_ impl.handlerList_ ∧
      (h ∉ impl.handlerList_ → impl.remove_handler h = impl) := by
  have hl : (impl.remove_handler h).handlerList_ =
      impl.handlerList_.filter (fun x => decide (x ≠ h)) := by
    simp [IntfMgrImpl.remove_handler, list_remove_eq_filter]
  refine ⟨hl, ?_, ?_, ?_, ?_⟩
  · rw [hl]; simp
  · intro x hx
    rw [hl, List.count_filter]
    simpa using hx
  · rw [hl]; exact List.filter_sublist _
  · intro hn
    cases impl with
    | mk l => simp [IntfMgrImpl.remove_handler, list_remove_of_not_mem h l hn]

/-- Witness of C6: removing a handler that is not registered is a no-op, and
removing one that occurs twice deletes both occurrences. -/
theorem C6_remove_handler_deletes_all_witness :
    (IntfMgrImpl.mk [1, 2, 3]).remove_handler 4 = IntfMgrImpl.mk [1, 2, 3] ∧
      ((IntfMgrImpl.mk [1, 2, 1, 3]).remove_handler 1).handlerList_ = [2, 3] :=
  ⟨(C6_remove_handler_deletes_all (IntfMgrImpl.mk [1, 2, 3]) 4).2.2.2.2 (by decide),
    (C6_remove_handler_deletes_all (IntfMgrImpl.mk [1, 2, 1, 3]) 1).1⟩

/-! ## Status conversion and payloads -/

/-- C7: `convert` is total; it maps the up-value to `INTF_OPER_UP`, each of
down, dormant, not-present and lower-layer-down to `INTF_OPER_DOWN`, and every
other internal value to `INTF_OPER_NULL`; `INTF_OPER_UP` is the image of the
up-value only, and `INTF_OPER_DOWN` of those four values only. -/
theorem C7_convert_mapping :
    convert IntfOperStatus.intfOperUp_ = oper_status_t.INTF_OPER_UP ∧
      convert IntfOperStatus.intfOperDown_ = oper_status_t.INTF_OPER_DOWN ∧
      convert IntfOperStatus.intfOperDormant_ = oper_status_t.INTF_OPER_DOWN ∧
      convert IntfOperStatus.intfOperNotPresent_ = oper_status_t.INTF_OPER_DOWN ∧
      convert IntfOperStatus.intfOperLowerLayerDown_ = oper_status_t.INTF_OPER_DOWN ∧
      (∀ raw, convert (IntfOperStatus.other raw) = oper_status_t.INTF_OPER_NULL) ∧
      (∀ s, convert s = oper_status_t.INTF_OPER_UP ↔ s = IntfOperStatus.intfOperUp_) ∧
      (∀ s, convert s = oper_status_t.INTF_OPER_DOWN ↔
        (s = IntfOperStatus.intfOperDown_ ∨ s = IntfOperStatus.intfOperDormant_ ∨
          s = IntfOperStatus.intfOperNotPresent_ ∨
          s = IntfOperStatus.intfOperLowerLayerDown_)) ∧
      (∀ s, convert s = oper_status_t.INTF_OPER_NULL ↔ ∃ raw, s = IntfOperStatus.other raw) := by
  refine ⟨rfl, rfl, rfl, rfl, rfl, fun _ => rfl, ?_, ?_, ?_⟩
  · intro s; cases s <;> simp [convert]
  · intro s; cases s <;> simp [convert]
  · intro s; cases s <;> simp [convert]

/-- C8: in every registry state, `on_oper_status(id, s)` calls
`on_oper_status(id, convert(s))` on each handler of the list, in list order,
and `on_admin_enabled(id, e)` calls `on_admin_enabled(id, e)` on each of them,
in list order. -/
theorem C8_payload_passed_to_handlers (impl : IntfMgrImpl) (intf_id : intf_id_t)
    (s : IntfOperStatus) (e : Bool) :
    impl.on_oper_status intf_id s =
        impl.handlerList_.map
          (fun h => (⟨h, HandlerCall.on_oper_status intf_id (convert s)⟩ : Invocation)) ∧
      impl.on_admin_enabled intf_id e =
        impl.handlerList_.map
          (fun h => (⟨h, HandlerCall.on_admin_enabled intf_id e⟩ : Invocation)) := by
  constructor
  · simp only [IntfMgrImpl.on_oper_status, for_each_handler_eq_map]
  · simp only [IntfMgrImpl.on_admin_enabled, for_each_handler_eq_map]

/-! ## Construction of interface identifiers -/

/-- C9: for a 32-bit raw value `v` whose type tag `v >> 25` is one of the five
tag constants, these being pairwise distinct, `intf_id_t(v)` is constructed
without panic, stores `v` unchanged, and `intf_type()` returns the type of
that tag. -/
theorem C9_recognized_tag_constructs (env : IntfIdAuthority) (v : Nat)
    (hv : v < 2 ^ 32) (hrec : env.recognized (type_tag v)) (hdist : env.tags_distinct) :
    intf_id_t.of_uint32 env v = Except.ok ⟨v⟩ ∧
      (type_tag v = env.ethIntfIdType →
        (intf_id_t.mk v).intf_type env = intf_type_t.INTF_TYPE_ETH) ∧
      (type_tag v = env.vlanIntfIdType →
        (intf_id_t.mk v).intf_type env = intf_type_t.INTF_TYPE_VLAN) ∧
      (type_tag v = env.mgmtIntfIdType →
        (intf_id_t.mk v).intf_type env = intf_type_t.INTF_TYPE_MANAGEMENT) ∧
      (type_tag v = env.loopbackIntfIdType →
        (intf_id_t.mk v).intf_type env = intf_type_t.INTF_TYPE_LOOPBACK) ∧
      (type_tag v = env.poIntfIdType →
        (intf_id_t.mk v).intf_type env = intf_type_t.INTF_TYPE_LAG) := by
  have hmod : to_uint32 v = v := Nat.mod_eq_of_lt hv
  simp only [IntfIdAuthority.tags_distinct, List.nodup_cons, List.mem_cons, List.mem_singleton,
    not_or, List.not_mem_nil, not_false_eq_true, List.nodup_nil, and_true] at hdist
  obtain ⟨⟨h12, h13, h14, h15⟩, ⟨h23, h24, h25⟩, ⟨h34, h35⟩, h45⟩ := hdist
  have e1 : type_tag v = env.ethIntfIdType →
      (intf_id_t.mk v).intf_type env = intf_type_t.INTF_TYPE_ETH := by
    intro h; unfold type_tag at h; simp [intf_id_t.intf_type, h]
  have e2 : type_tag v = env.vlanIntfIdType →
      (intf_id_t.mk v).intf_type env = intf_type_t.INTF_TYPE_VLAN := by
    intro h; unfold type_tag at h; simp [intf_id_t.intf_type, h, Ne.symm h12]
  have e3 : type_tag v = env.mgmtIntfIdType →
      (intf_id_t.mk v).intf_type env = intf_type_t.INTF_TYPE_MANAGEMENT := by
    intro h; unfold type_tag at h
    simp [intf_id_t.intf_type, h, Ne.symm h13, Ne.symm h23]
  have e4 : type_tag v = env.loopbackIntfIdType →
      (intf_id_t.mk v).intf_type env = intf_type_t.INTF_TYPE_LOOPBACK := by
    intro h; unfold type_tag at h
    simp [intf_id_t.intf_type, h, Ne.symm h14, Ne.symm h24, Ne.symm h34]
  have e5 : type_tag v = env.poIntfIdType →
      (intf_id_t.mk v).intf_type env = intf_type_t.INTF_TYPE_LAG := by
    intro h; unfold type_tag at h
    simp [intf_id_t.intf_type, h, Ne.symm h15, Ne.symm h25, Ne.symm h35, Ne.symm h45]
  refine ⟨?_, e1, e2, e3, e4, e5⟩
  unfold intf_id_t.of_uint32
  rw [hmod]
  rcases hrec with h | h | h | h | h
  · simp [e1 h]
  · simp [e2 h]
  · simp [e3 h]
  · simp [e4 h]
  · simp [e5 h]

/-- Witness of C9: under the sample authority the raw value with tag 1 and
index 3 is constructed and classified as Ethernet. -/
theorem C9_recognized_tag_constructs_witness :
    intf_id_t.of_uint32 sampleAuthority (2 ^ 25 + 3) = Except.ok ⟨2 ^ 25 + 3⟩ ∧
      (intf_id_t.mk (2 ^ 25 + 3)).intf_type sampleAuthority = intf_type_t.INTF_TYPE_ETH :=
  ⟨(C9_recognized_tag_constructs sampleAuthority (2 ^ 25 + 3) (by decide) (by decide)
      (by decide)).1,
    (C9_recognized_tag_constructs sampleAuthority (2 ^ 25 + 3) (by decide) (by decide)
      (by decide)).2.1 (by decide)⟩

/-- C10, as stated, fails: under the sample authority the raw value 0 has the
unrecognized tag 0 but equals the empty sentinel, and the raw value of "Null0"
has the unrecognized tag 6; both are constructed without panic. -/
theorem C10_counterexample :
    (0 < 2 ^ 32 ∧ ¬ sampleAuthority.recognized (type_tag 0) ∧
        intf_id_t.of_uint32 sampleAuthority 0 = Except.ok ⟨0⟩ ∧
        intf_id_t.of_uint32 sampleAuthority 0 ≠ Except.error "Invalid interface id") ∧
      (6 * 2 ^ 25 < 2 ^ 32 ∧ ¬ sampleAuthority.recognized (type_tag (6 * 2 ^ 25)) ∧
        intf_id_t.of_uint32 sampleAuthority (6 * 2 ^ 25) = Except.ok ⟨6 * 2 ^ 25⟩ ∧
        intf_id_t.of_uint32 sampleAuthority (6 * 2 ^ 25) ≠
          Except.error "Invalid interface id") := by
  have h0 : intf_id_t.of_uint32 sampleAuthority 0 = Except.ok ⟨0⟩ := rfl
  have h6 : intf_id_t.of_uint32 sampleAuthority (6 * 2 ^ 25) = Except.ok ⟨6 * 2 ^ 25⟩ := rfl
  refine ⟨⟨by decide, by decide, h0, ?_⟩, ⟨by decide, by decide, h6, ?_⟩⟩
  · rw [h0]; intro h; cases h
  · rw [h6]; intro h; cases h

/-- C10, amended: a 32-bit raw value whose type tag is none of the five tag
constants fails to construct (panic "Invalid interface id") exactly when it is
neither the id of "Null0" nor the empty sentinel; when it is one of these two
it is constructed and stored unchanged. -/
theorem C10_unrecognized_tag_panics (env : IntfIdAuthority) (v : Nat)
    (hv : v < 2 ^ 32) (hrec : ¬ env.recognized (type_tag v)) :
    (intf_id_t.of_uint32 env v = Except.error "Invalid interface id" ↔
        (v ≠ null0_intf_id env ∧ v ≠ empty_intf_id env)) ∧
      ((v = null0_intf_id env ∨ v = empty_intf_id env) →
        intf_id_t.of_uint32 env v = Except.ok ⟨v⟩) := by
  have hmod : to_uint32 v = v := Nat.mod_eq_of_lt hv
  simp only [IntfIdAuthority.recognized, type_tag, not_or] at hrec
  obtain ⟨h1, h2, h3, h4, h5⟩ := hrec
  by_cases hn : v = null0_intf_id env
  · simp [intf_id_t.of_uint32, intf_id_t.intf_type, intf_id_t.is_null0, hmod, h1, h2, h3, h4,
      h5, hn.symm]
  · by_cases he : v = empty_intf_id env
    · simp [intf_id_t.of_uint32, intf_id_t.intf_type, intf_id_t.is_null0, hmod, h1, h2, h3, h4,
        h5, hn, he.symm]
    · simp [intf_id_t.of_uint32, intf_id_t.intf_type, intf_id_t.is_null0, hmod, h1, h2, h3, h4,
        h5, hn, he]

/-- Witness of the amended C10: under the sample authority the raw value with
tag 7 is rejected. -/
theorem C10_unrecognized_tag_panics_witness :
    intf_id_t.of_uint32 sampleAuthority (7 * 2 ^ 25) = Except.error "Invalid interface id" :=
  (C10_unrecognized_tag_panics sampleAuthority (7 * 2 ^ 25) (by decide) (by decide)).1.mpr
    (by decide)

/-- C11: the name constructors break the invariant.  Under an authority that
resolves "Tunnel1" to an id of tag 7, the constructor from a name returns that
id without panic, `intf_type()` classifies it as OTHER, and the constructor
from the same raw value panics. -/
theorem C11_name_constructor_yields_other :
    intf_id_t.of_name tunnelAuthority "Tunnel1" = Except.ok ⟨7 * 2 ^ 25 + 1⟩ ∧
      (intf_id_t.mk (7 * 2 ^ 25 + 1)).intf_type tunnelAuthority =
        intf_type_t.INTF_TYPE_OTHER ∧
      intf_id_t.of_uint32 tunnelAuthority (7 * 2 ^ 25 + 1) =
        Except.error "Invalid interface id" :=
  ⟨rfl, rfl, rfl⟩

/-- C12, as stated, fails: when the empty sentinel carries the Ethernet tag
the default-constructed id is classified as ETH, and when "Null0" resolves to
the empty sentinel it is classified as NULL0. -/
theorem C12_counterexample :
    (intf_id_t.empty taggedEmptyAuthority).intf_type taggedEmptyAuthority =
        intf_type_t.INTF_TYPE_ETH ∧
      (intf_id_t.empty taggedEmptyAuthority).intf_type taggedEmptyAuthority ≠
        intf_type_t.INTF_TYPE_NULL ∧
      (intf_id_t.empty null0EmptyAuthority).intf_type null0EmptyAuthority =
        intf_type_t.INTF_TYPE_NULL0 ∧
      (intf_id_t.empty null0EmptyAuthority).intf_type null0EmptyAuthority ≠
        intf_type_t.INTF_TYPE_NULL := by
  decide

/-- C12, amended: for every authority the default-constructed id satisfies
`operator!() == true`, and `intf_type()` is NULL exactly when the tag of the
empty sentinel is none of the five tag constants and the empty sentinel is not
the id of "Null0". -/
theorem C12_default_id (env : IntfIdAuthority) :
    (intf_id_t.empty env).not env = true ∧
      ((intf_id_t.empty env).intf_type env = intf_type_t.INTF_TYPE_NULL ↔
        (¬ env.recognized (type_tag (empty_intf_id env)) ∧
          empty_intf_id env ≠ null0_intf_id env)) := by
  refine ⟨by simp [intf_id_t.not, intf_id_t.empty], ?_⟩
  obtain ⟨-, -, -, -, -, c6, c7, -⟩ := intf_type_cases env (intf_id_t.empty env)
  have hid : (intf_id_t.empty env).intfId_ = empty_intf_id env := rfl
  rw [hid] at c6 c7
  constructor
  · intro hnull
    by_cases hr : env.recognized (type_tag (empty_intf_id env))
    · rcases intf_type_of_recognized env (intf_id_t.empty env) hr with h | h | h | h | h <;>
        simp [h] at hnull
    · refine ⟨hr, ?_⟩
      intro he
      have hn : (intf_id_t.empty env).is_null0 env = true := by
        simp [intf_id_t.is_null0, intf_id_t.empty, he]
      simp [c6 hr hn] at hnull
  · rintro ⟨hr, hne⟩
    have hn : (intf_id_t.empty env).is_null0 env = false := by
      simp [intf_id_t.is_null0, intf_id_t.empty, hne]
    exact c7 hr hn rfl

/-- Witness of the amended C12: under the sample authority the default id is
classified as NULL. -/
theorem C12_default_id_witness :
    (intf_id_t.empty sampleAuthority).intf_type sampleAuthority =
      intf_type_t.INTF_TYPE_NULL :=
  (C12_default_id sampleAuthority).2.mpr (by decide)

/-- C13: `intf_type()` classifies in a fixed priority order.  The five tag
constants are tested first, in the order Ethernet, VLAN, management, loopback,
port-channel, whatever the value is equal to; with pairwise distinct constants
a value gets the type of the constant its tag matches.  When no constant
matches, the value is NULL0 if it equals the id resolved for "Null0",
otherwise NULL if it equals the empty sentinel, otherwise OTHER.
`is_null0()` is true exactly for the id resolved for "Null0", and the result
is NULL0 exactly when no constant matches and `is_null0()` is true. -/
theorem C13_intf_type_priority (env : IntfIdAuthority) (x : intf_id_t) :
    (type_tag x.intfId_ = env.ethIntfIdType →
        x.intf_type env = intf_type_t.INTF_TYPE_ETH) ∧
      (type_tag x.intfId_ ≠ env.ethIntfIdType → type_tag x.intfId_ = env.vlanIntfIdType →
        x.intf_type env = intf_type_t.INTF_TYPE_VLAN) ∧
      (type_tag x.intfId_ ≠ env.ethIntfIdType → type_tag x.intfId_ ≠ env.vlanIntfIdType →
        type_tag x.intfId_ = env.mgmtIntfIdType →
        x.intf_type env = intf_type_t.INTF_TYPE_MANAGEMENT) ∧
      (type_tag x.intfId_ ≠ env.ethIntfIdType → type_tag x.intfId_ ≠ env.vlanIntfIdType →
        type_tag x.intfId_ ≠ env.mgmtIntfIdType →
        type_tag x.intfId_ = env.loopbackIntfIdType →
        x.intf_type env = intf_type_t.INTF_TYPE_LOOPBACK) ∧
      (type_tag x.intfId_ ≠ env.ethIntfIdType → type_tag x.intfId_ ≠ env.vlanIntfIdType →
        type_tag x.intfId_ ≠ env.mgmtIntfIdType →
        type_tag x.intfId_ ≠ env.loopbackIntfIdType →
        type_tag x.intfId_ = env.poIntfIdType →
        x.intf_type env = intf_type_t.INTF_TYPE_LAG) ∧
      (env.tags_distinct →
        (type_tag x.intfId_ = env.vlanIntfIdType →
          x.intf_type env = intf_type_t.INTF_TYPE_VLAN) ∧
        (type_tag x.intfId_ = env.mgmtIntfIdType →
          x.intf_type env = intf_type_t.INTF_TYPE_MANAGEMENT) ∧
        (type_tag x.intfId_ = env.loopbackIntfIdType →
          x.intf_type env = intf_type_t.INTF_TYPE_LOOPBACK) ∧
        (type_tag x.intfId_ = env.poIntfIdType →
          x.intf_type env = intf_type_t.INTF_TYPE_LAG)) ∧
      (¬ env.recognized (type_tag x.intfId_) → x.intfId_ = null0_intf_id env →
        x.intf_type env = intf_type_t.INTF_TYPE_NULL0) ∧
      (¬ env.recognized (type_tag x.intfId_) → x.intfId_ ≠ null0_intf_id env →
        x.intfId_ = empty_intf_id env → x.intf_type env = intf_type_t.INTF_TYPE_NULL) ∧
      (¬ env.recognized (type_tag x.intfId_) → x.intfId_ ≠ null0_intf_id env →
        x.intfId_ ≠ empty_intf_id env → x.intf_type env = intf_type_t.INTF_TYPE_OTHER) ∧
      (x.is_null0 env = true ↔ x.intfId_ = null0_intf_id env) ∧
      (x.intf_type env = intf_type_t.INTF_TYPE_NULL0 ↔
        (¬ env.recognized (type_tag x.intfId_) ∧ x.is_null0 env = true)) ∧
      (x.intf_type env = intf_type_t.INTF_TYPE_NULL0 ↔
        (¬ env.recognized (type_tag x.intfId_) ∧ x.intfId_ = null0_intf_id env)) := by
  obtain ⟨c1, c2, c3, c4, c5, c6, c7, c8⟩ := intf_type_cases env x
  have hn0 : x.is_null0 env = true ↔ x.intfId_ = null0_intf_id env := by
    simp [intf_id_t.is_null0]
  have hn1 : x.intfId_ ≠ null0_intf_id env → x.is_null0 env = false := by
    intro hne
    cases hb : x.is_null0 env with
    | false => rfl
    | true => exact absurd (hn0.mp hb) hne
  have hiff : x.intf_type env = intf_type_t.INTF_TYPE_NULL0 ↔
      (¬ env.recognized (type_tag x.intfId_) ∧ x.is_null0 env = true) := by
    constructor
    · intro hnull0
      by_cases hr : env.recognized (type_tag x.intfId_)
      · rcases intf_type_of_recognized env x hr with h | h | h | h | h <;>
          simp [h] at hnull0
      · refine ⟨hr, ?_⟩
        cases hn : x.is_null0 env with
        | true => rfl
        | false =>
          by_cases he : x.intfId_ = empty_intf_id env
          · simp [c7 hr hn he] at hnull0
          · simp [c8 hr hn he] at hnull0
    · rintro ⟨hr, hn⟩
      exact c6 hr hn
  refine ⟨c1, c2, c3, c4, c5, ?_, ?_, ?_, ?_, hn0, hiff, ?_⟩
  · intro hdist
    simp only [IntfIdAuthority.tags_distinct, List.nodup_cons, List.mem_cons,
      List.mem_singleton, not_or, List.not_mem_nil, not_false_eq_true, List.nodup_nil,
      and_true] at hdist
    obtain ⟨⟨h12, h13, h14, h15⟩, ⟨h23, h24, h25⟩, ⟨h34, h35⟩, h45⟩ := hdist
    refine ⟨?_, ?_, ?_, ?_⟩
    · intro h
      exact c2 (by rw [h]; exact Ne.symm h12) h
    · intro h
      exact c3 (by rw [h]; exact Ne.symm h13) (by rw [h]; exact Ne.symm h23) h
    · intro h
      exact c4 (by rw [h]; exact Ne.symm h14) (by rw [h]; exact Ne.symm h24)
        (by rw [h]; exact Ne.symm h34) h
    · intro h
      exact c5 (by rw [h]; exact Ne.symm h15) (by rw [h]; exact Ne.symm h25)
        (by rw [h]; exact Ne.symm h35) (by rw [h]; exact Ne.symm h45) h
  · intro hr he
    exact c6 hr (hn0.mpr he)
  · intro hr hne he
    exact c7 hr (hn1 hne) he
  · intro hr hne he
    exact c8 hr (hn1 hne) he
  · rw [hiff, hn0]

/-- Witness of C13: under the sample authority the id of "Null0" (tag 6) is
classified as NULL0, the raw value 0 (the empty sentinel, not the id of
"Null0") as NULL, the raw value of tag 7 as OTHER, and a value of tag 2 as
VLAN; under the authority where "Null0" resolves to the empty sentinel the
Null0 test wins over the empty test. -/
theorem C13_intf_type_priority_witness :
    (intf_id_t.mk (6 * 2 ^ 25)).intf_type sampleAuthority = intf_type_t.INTF_TYPE_NULL0 ∧
      (intf_id_t.mk 0).intf_type sampleAuthority = intf_type_t.INTF_TYPE_NULL ∧
      (intf_id_t.mk (7 * 2 ^ 25 + 1)).intf_type sampleAuthority =
        intf_type_t.INTF_TYPE_OTHER ∧
      (intf_id_t.mk 0).intf_type null0EmptyAuthority = intf_type_t.INTF_TYPE_NULL0 ∧
      (intf_id_t.mk (2 * 2 ^ 25 + 9)).intf_type sampleAuthority =
        intf_type_t.INTF_TYPE_VLAN :=
  ⟨(C13_intf_type_priority sampleAuthority ⟨6 * 2 ^ 25⟩).2.2.2.2.2.2.1 (by decide) (by decide),
    (C13_intf_type_priority sampleAuthority ⟨0⟩).2.2.2.2.2.2.2.1 (by decide) (by decide)
      (by decide),
    (C13_intf_type_priority sampleAuthority ⟨7 * 2 ^ 25 + 1⟩).2.2.2.2.2.2.2.2.1 (by decide)
      (by decide) (by decide),
    (C13_intf_type_priority null0EmptyAuthority ⟨0⟩).2.2.2.2.2.2.1 (by decide) (by decide),
    ((C13_intf_type_priority sampleAuthority ⟨2 * 2 ^ 25 + 9⟩).2.2.2.2.2.1 (by decide)).1
      (by decide)⟩

/-- C19: for every id, `intf_type() == INTF_TYPE_NULL` implies that
`operator!()` is true; and an id for which `operator!()` is true is classified
otherwise only when the tag of the empty sentinel is one of the five tag
constants or the empty sentinel is the id of "Null0". -/
theorem C19_null_type_implies_empty (env : IntfIdAuthority) (x : intf_id_t) :
    (x.intf_type env = intf_type_t.INTF_TYPE_NULL → x.not env = true) ∧
      (x.not env = true → x.intf_type env ≠ intf_type_t.INTF_TYPE_NULL →
        (env.recognized (type_tag (empty_intf_id env)) ∨
          empty_intf_id env = null0_intf_id env)) := by
  obtain ⟨-, -, -, -, -, c6, c7, c8⟩ := intf_type_cases env x
  constructor
  · intro hnull
    by_cases hr : env.recognized (type_tag x.intfId_)
    · rcases intf_type_of_recognized env x hr with h | h | h | h | h <;> simp [h] at hnull
    · cases hn : x.is_null0 env with
      | true => simp [c6 hr hn] at hnull
      | false =>
        by_cases he : x.intfId_ = empty_intf_id env
        · simp [intf_id_t.not, he]
        · simp [c8 hr hn he] at hnull
  · intro hnot hne
    have he : x.intfId_ = empty_intf_id env := by simpa [intf_id_t.not] using hnot
    by_cases hr : env.recognized (type_tag (empty_intf_id env))
    · exact Or.inl hr
    · right
      by_contra hdiff
      have hn : x.is_null0 env = false := by simp [intf_id_t.is_null0, he, hdiff]
      exact hne (c7 (by rw [he]; exact hr) hn he)

/-- Witness of C19: under the sample authority the empty id is classified as
NULL, so `operator!()` is true for it; under the authority whose empty
sentinel carries the Ethernet tag, `operator!()` is true for the sentinel, it
is not classified as NULL, and the tag of the sentinel is indeed recognized. -/
theorem C19_null_type_implies_empty_witness :
    (intf_id_t.mk 0).not sampleAuthority = true ∧
      (taggedEmptyAuthority.recognized (type_tag (empty_intf_id taggedEmptyAuthority)) ∨
        empty_intf_id taggedEmptyAuthority = null0_intf_id taggedEmptyAuthority) :=
  ⟨(C19_null_type_implies_empty sampleAuthority ⟨0⟩).1 (by decide),
    (C19_null_type_implies_empty taggedEmptyAuthority ⟨2 ^ 25⟩).2 (by decide) (by decide)⟩

/-! ## The manager facade -/

/-- C14: in every directory state and for every id, `oper_status(id)` panics
with "No matching interface" if and only if `exists(id)` is false, and it has
no other panic; when `exists(id)` is true, which is when the id is a key of the
directory, it returns `convert` of the operational status of the record found
for the id. -/
theorem C14_oper_status_iff_exists (dir : AllIntfStatusDir) (id : intf_id_t) :
    (intf_mgr.oper_status dir id = Except.error "No matching interface" ↔
        intf_mgr.exists dir id = false) ∧
      (∀ msg, intf_mgr.oper_status dir id = Except.error msg →
        msg = "No matching interface") ∧
      (intf_mgr.exists dir id = true ↔ id.intfId_ ∈ dir.keys) ∧
      (intf_mgr.exists dir id = true →
        ∃ st, dir.intfStatus (convert_intf_id id) = some st ∧
          intf_mgr.oper_status dir id = Except.ok (convert st.operStatus)) := by
  refine ⟨?_, ?_, ?_, ?_⟩
  · unfold intf_mgr.oper_status intf_mgr.exists
    cases dir.intfStatus (convert_intf_id id) with
    | none => simp
    | some st => simp
  · intro msg
    unfold intf_mgr.oper_status
    cases dir.intfStatus (convert_intf_id id) with
    | none => intro h; simp only [Except.error.injEq] at h; exact h.symm
    | some st => intro h; simp at h
  · exact intfStatus_isSome_iff dir id.intfId_
  · unfold intf_mgr.oper_status intf_mgr.exists
    cases dir.intfStatus (convert_intf_id id) with
    | none => simp
    | some st => intro _; exact ⟨st, rfl, rfl⟩

/-- Witness of C14: in the sample directory Ethernet 2 exists and is down, and
VLAN 7 has no record. -/
theorem C14_oper_status_iff_exists_witness :
    intf_mgr.oper_status sampleDir ⟨2 * 2 ^ 25 + 7⟩ = Except.error "No matching interface" ∧
      (∃ st, sampleDir.intfStatus (convert_intf_id ⟨2 ^ 25 + 2⟩) = some st ∧
        intf_mgr.oper_status sampleDir ⟨2 ^ 25 + 2⟩ = Except.ok (convert st.operStatus)) :=
  ⟨(C14_oper_status_iff_exists sampleDir ⟨2 * 2 ^ 25 + 7⟩).1.mpr (by decide),
    (C14_oper_status_iff_exists sampleDir ⟨2 ^ 25 + 2⟩).2.2.2 (by decide)⟩

/-! ## Round trip and status notifications -/

/-- C17: in a state that satisfies the single-registration invariant, for a
living handler `h` whose flag is false, `h.watch_all_intfs(true)` followed by
`h.watch_all_intfs(false)` gives back the very same state: the same handler
list, in the same order, and the same flags. -/
theorem C17_register_unregister_round_trip (w : World) (h : HandlerPtr)
    (hinv : single_registration w) (hlive : w.live h = true)
    (hflag : w.watching_all_intfs_ h = false) :
    intf_handler.watch_all_intfs (intf_handler.watch_all_intfs w h true) h false = w := by
  have hnot : h ∉ w.impl.handlerList_ := by
    rw [(hinv h hlive).2]; simp [hflag]
  have hset : set_at (set_at w.watching_all_intfs_ h true) h false = w.watching_all_intfs_ := by
    funext x
    by_cases hx : x = h
    · subst hx; simp [set_at, hflag]
    · simp [set_at, hx]
  have hfilter : List.filter (fun x => !decide (x = h)) w.impl.handlerList_ =
      w.impl.handlerList_ := by
    rw [List.filter_eq_self]
    intro a ha
    have : a ≠ h := fun e => hnot (e ▸ ha)
    simpa using this
  cases w with
  | mk impl flags live =>
    cases impl with
    | mk l =>
      simp only at hnot hflag hset hfilter
      simp [intf_handler.watch_all_intfs, hflag, set_at, IntfMgrImpl.add_handler,
        IntfMgrImpl.remove_handler, list_remove_eq_filter, List.filter_append, hfilter]
      exact hset

/-- Witness of C17: handler 1 is registered, handler 2 is not; handler 2
registers and unregisters, and the state is the one before. -/
theorem C17_register_unregister_round_trip_witness :
    intf_handler.watch_all_intfs (intf_handler.watch_all_intfs
        (intf_handler.watch_all_intfs (World.fresh [1, 2]) 1 true) 2 true) 2 false =
      intf_handler.watch_all_intfs (World.fresh [1, 2]) 1 true :=
  C17_register_unregister_round_trip (intf_handler.watch_all_intfs (World.fresh [1, 2]) 1 true) 2
    (single_registration_of_inv _
      (registry_inv_watch (World.fresh [1, 2]) 1 true (registry_inv_fresh [1, 2]) rfl))
    rfl rfl

/-- C18: for an interface id whose raw value is accepted by the constructor of
`intf_id_t`, `handleIntfStatus(id)` returns without panic and calls exactly one
method on every registered handler, in registration order: `on_create(id)`
when the directory has a status record for the id, and `on_delete(id)` when it
has none; no handler gets both and no handler gets neither. -/
theorem C18_handleIntfStatus_one_kind (env : IntfIdAuthority) (dir : AllIntfStatusDir)
    (impl : IntfMgrImpl) (sm : IntfMgrSm) (intfId : Nat) (intf_id : intf_id_t)
    (hc : intf_id_t.of_uint32 env intfId = Except.ok intf_id) :
    ((dir.intfStatus intfId).isSome = true →
        IntfMgrSm.handleIntfStatus env dir impl sm intfId =
          Except.ok (sm.intfStatusSmIs intfId,
            impl.handlerList_.map
              (fun h => (⟨h, HandlerCall.on_create intf_id⟩ : Invocation)))) ∧
      ((dir.intfStatus intfId).isSome = false →
        IntfMgrSm.handleIntfStatus env dir impl sm intfId =
          Except.ok (sm.intfStatusSmDel intfId,
            impl.handlerList_.map
              (fun h => (⟨h, HandlerCall.on_delete intf_id⟩ : Invocation)))) ∧
      (∃ sm1 trace, IntfMgrSm.handleIntfStatus env dir impl sm intfId = Except.ok (sm1, trace) ∧
        (∀ inv ∈ trace, inv.receiver ∈ impl.handlerList_) ∧
        (∀ h ∈ impl.handlerList_,
          ((dir.intfStatus intfId).isSome = true ∧
              (⟨h, HandlerCall.on_create intf_id⟩ : Invocation) ∈ trace ∧
              (⟨h, HandlerCall.on_delete intf_id⟩ : Invocation) ∉ trace) ∨
            ((dir.intfStatus intfId).isSome = false ∧
              (⟨h, HandlerCall.on_delete intf_id⟩ : Invocation) ∈ trace ∧
              (⟨h, HandlerCall.on_create intf_id⟩ : Invocation) ∉ trace))) := by
  unfold IntfMgrSm.handleIntfStatus
  rw [hc]
  cases hst : dir.intfStatus intfId with
  | none =>
    refine ⟨by simp, ?_, ?_⟩
    · intro _
      simp [IntfMgrImpl.on_delete, for_each_handler_eq_map]
    · refine ⟨_, _, rfl, ?_, ?_⟩
      · intro inv hinv
        simp only [IntfMgrImpl.on_delete, for_each_handler_eq_map, List.mem_map] at hinv
        obtain ⟨a, ha, rfl⟩ := hinv
        exact ha
      · intro h hh
        right
        simp [IntfMgrImpl.on_delete, for_each_handler_eq_map, hh]
  | some st =>
    refine ⟨?_, by simp, ?_⟩
    · intro _
      simp [IntfMgrImpl.on_create, for_each_handler_eq_map]
    · refine ⟨_, _, rfl, ?_, ?_⟩
      · intro inv hinv
        simp only [IntfMgrImpl.on_create, for_each_handler_eq_map, List.mem_map] at hinv
        obtain ⟨a, ha, rfl⟩ := hinv
        exact ha
      · intro h hh
        left
        simp [IntfMgrImpl.on_create, for_each_handler_eq_map, hh]

/-- Witness of C18: with handlers 1 and 2 registered, a status change of
Ethernet 1, which has a record in the sample directory, is notified as a
creation to 1 and then 2. -/
theorem C18_handleIntfStatus_one_kind_witness :
    IntfMgrSm.handleIntfStatus sampleAuthority sampleDir (IntfMgrImpl.mk [1, 2])
        (IntfMgrSm.mk []) (2 ^ 25 + 1) =
      Except.ok ((IntfMgrSm.mk []).intfStatusSmIs (2 ^ 25 + 1),
        [1, 2].map (fun h => (⟨h, HandlerCall.on_create ⟨2 ^ 25 + 1⟩⟩ : Invocation))) :=
  (C18_handleIntfStatus_one_kind sampleAuthority sampleDir (IntfMgrImpl.mk [1, 2])
    (IntfMgrSm.mk []) (2 ^ 25 + 1) ⟨2 ^ 25 + 1⟩ (by rfl)).1 (by decide)

/-! ## Iteration over the directory -/

/-- C15, as stated, fails: the directory holds Ethernet 1 and then an interface
of tag 7, and the callback always returns true.  The callback is called on
Ethernet 1 only, and the run ends in the panic of the constructor of
`intf_id_t` at the second key, although the callback never returned false. -/
theorem C15_counterexample :
    tunnelDir.intfStatusIterator = [2 ^ 25 + 1, 7 * 2 ^ 25 + 1] ∧
      (intf_mgr.intf_foreach sampleAuthority tunnelDir
          (fun _ (n : Nat) => (true, n + 1)) 0).calls = [(⟨2 ^ 25 + 1⟩, true)] ∧
      (intf_mgr.intf_foreach sampleAuthority tunnelDir
          (fun _ (n : Nat) => (true, n + 1)) 0).panicked = some "Invalid interface id" ∧
      (intf_mgr.intf_foreach sampleAuthority tunnelDir
          (fun _ (n : Nat) => (true, n + 1)) 0).arg = 1 ∧
      stop_at_first_false (callback_run (fun _ (n : Nat) => (true, n + 1))
          (tunnelDir.intfStatusIterator.map (fun k => intf_id_t.mk (to_uint32 k))) 0) =
        [(⟨2 ^ 25 + 1⟩, true), (⟨7 * 2 ^ 25 + 1⟩, true)] :=
  ⟨rfl, rfl, rfl, rfl, rfl⟩

/-- C15, amended: when every key of the directory is accepted by the
constructor of `intf_id_t`, `intf_foreach(callback, arg)` returns without
panic and calls the callback on the ids in key order, on exactly the shortest
prefix that ends with the first id for which the callback returns false (the
whole sequence if it never returns false), and on no id after that one. -/
theorem C15_foreach_stops_at_first_false {σ : Type} (env : IntfIdAuthority) (dir : AllIntfStatusDir)
    (handler : intf_id_t → σ → Bool × σ) (arg : σ)
    (hvalid : keys_constructible env dir.intfStatusIterator) :
    (intf_mgr.intf_foreach env dir handler arg).panicked = none ∧
      (intf_mgr.intf_foreach env dir handler arg).calls =
        stop_at_first_false (callback_run handler
          (dir.intfStatusIterator.map (fun k => intf_id_t.mk (to_uint32 k))) arg) ∧
      (intf_mgr.intf_foreach env dir handler arg).calls.map Prod.fst <+:
        dir.intfStatusIterator.map (fun k => intf_id_t.mk (to_uint32 k)) ∧
      (∀ c ∈ (intf_mgr.intf_foreach env dir handler arg).calls.dropLast, c.2 = true) ∧
      ((intf_mgr.intf_foreach env dir handler arg).calls.map Prod.fst =
          dir.intfStatusIterator.map (fun k => intf_id_t.mk (to_uint32 k)) ∨
        ∃ c, (intf_mgr.intf_foreach env dir handler arg).calls.getLast? = some c ∧
          c.2 = false) := by
  obtain ⟨hcalls, hpanic⟩ :=
    foreach_loop_of_constructible env handler dir.intfStatusIterator arg hvalid
  have hmapfst : ∀ (ids : List intf_id_t) (a : σ),
      (callback_run handler ids a).map Prod.fst = ids := by
    intro ids
    induction ids with
    | nil => intro a; rfl
    | cons i rest ih => intro a; simp [callback_run, ih]
  unfold intf_mgr.intf_foreach
  refine ⟨hpanic, hcalls, foreach_loop_calls_initial env handler _ arg, ?_, ?_⟩
  · rw [hcalls]; exact stop_at_first_false_dropLast _
  · rw [hcalls]
    rcases stop_at_first_false_end (callback_run handler
      (dir.intfStatusIterator.map (fun k => intf_id_t.mk (to_uint32 k))) arg) with h | h
    · left; rw [h, hmapfst]
    · right; exact h

/-- Witness of the amended C15: over the sample directory a callback that
counts the calls in `*arg` and returns false at the id of Ethernet 2 is called
on Ethernet 1 and Ethernet 2 and not on VLAN 1. -/
theorem C15_foreach_stops_at_first_false_witness :
    (intf_mgr.intf_foreach sampleAuthority sampleDir
        (fun id (n : Nat) => (decide (id.intfId_ ≠ 2 ^ 25 + 2), n + 1)) 0).calls =
      stop_at_first_false (callback_run
        (fun id (n : Nat) => (decide (id.intfId_ ≠ 2 ^ 25 + 2), n + 1))
        (sampleDir.intfStatusIterator.map (fun k => intf_id_t.mk (to_uint32 k))) 0) ∧
      (intf_mgr.intf_foreach sampleAuthority sampleDir
        (fun id (n : Nat) => (decide (id.intfId_ ≠ 2 ^ 25 + 2), n + 1)) 0).calls =
        [(⟨2 ^ 25 + 1⟩, true), (⟨2 ^ 25 + 2⟩, false)] :=
  ⟨(C15_foreach_stops_at_first_false sampleAuthority sampleDir
      (fun id (n : Nat) => (decide (id.intfId_ ≠ 2 ^ 25 + 2), n + 1)) 0 (by decide)).2.1,
    rfl⟩

/-- C16: over a key-ordered directory, `intf_foreach(callback, arg, bookmark)`
calls the callback only on ids whose key is strictly after the bookmark, in
key order and without skipping any, so that the first call, if the first such
key is accepted by the constructor of `intf_id_t`, is on the first such key;
when the bookmark is the last key the callback is not called at all. -/
theorem C16_foreach_bookmark {σ : Type} (env : IntfIdAuthority) (dir : AllIntfStatusDir)
    (handler : intf_id_t → σ → Bool × σ) (arg : σ) (bookmark : intf_id_t)
    (hord : dir.key_ordered) :
    (intf_mgr.intf_foreach_bookmark env dir handler arg bookmark).calls.map Prod.fst <+:
        (dir.keys.filter (fun k => decide (bookmark.intfId_ < k))).map
          (fun k => intf_id_t.mk (to_uint32 k)) ∧
      (∀ c ∈ (intf_mgr.intf_foreach_bookmark env dir handler arg bookmark).calls,
        ∃ k ∈ dir.keys, bookmark.intfId_ < k ∧ c.1 = ⟨to_uint32 k⟩) ∧
      (∀ k rest, dir.keys.filter (fun k => decide (bookmark.intfId_ < k)) = k :: rest →
        (intf_id_t.mk (to_uint32 k)).intf_type env ≠ intf_type_t.INTF_TYPE_OTHER →
        ((intf_mgr.intf_foreach_bookmark env dir handler arg bookmark).calls.head?).map
          Prod.fst = some ⟨to_uint32 k⟩) ∧
      (dir.keys.getLast? = some bookmark.intfId_ →
        (intf_mgr.intf_foreach_bookmark env dir handler arg bookmark).calls = [] ∧
        (intf_mgr.intf_foreach_bookmark env dir handler arg bookmark).panicked = none ∧
        (intf_mgr.intf_foreach_bookmark env dir handler arg bookmark).arg = arg) := by
  have hiter : dir.intfStatusIteratorFrom (convert_intf_id bookmark) =
      dir.keys.filter (fun k => decide (bookmark.intfId_ < k)) :=
    dropWhile_le_eq_filter bookmark.intfId_ dir.keys hord
  have hpre : (intf_mgr.intf_foreach_bookmark env dir handler arg bookmark).calls.map
      Prod.fst <+: (dir.keys.filter (fun k => decide (bookmark.intfId_ < k))).map
        (fun k => intf_id_t.mk (to_uint32 k)) := by
    unfold intf_mgr.intf_foreach_bookmark
    rw [hiter]
    exact foreach_loop_calls_initial env handler _ arg
  refine ⟨hpre, ?_, ?_, ?_⟩
  · intro c hc
    have hmem : c.1 ∈ (dir.keys.filter (fun k => decide (bookmark.intfId_ < k))).map
        (fun k => intf_id_t.mk (to_uint32 k)) :=
      hpre.subset (List.mem_map_of_mem Prod.fst hc)
    obtain ⟨k, hk, hkc⟩ := List.mem_map.mp hmem
    have hk2 := List.mem_filter.mp hk
    exact ⟨k, hk2.1, by simpa using hk2.2, hkc.symm⟩
  · intro k rest hkeys hne
    unfold intf_mgr.intf_foreach_bookmark
    rw [hiter, hkeys]
    simp only [foreach_loop, of_uint32_of_ne_other env k hne]
    by_cases hr : (handler ⟨to_uint32 k⟩ arg).1 = true
    · simp [hr]
    · simp [hr]
  · intro hlast
    have hnil : dir.intfStatusIteratorFrom (convert_intf_id bookmark) = [] :=
      dropWhile_le_last bookmark.intfId_ dir.keys hord hlast
    unfold intf_mgr.intf_foreach_bookmark
    rw [hnil]
    simp [foreach_loop]

/-- Witness of C16: over the sample directory, a bookmark on VLAN 1, the last
key, visits nothing, and a bookmark on Ethernet 1 starts at Ethernet 2. -/
theorem C16_foreach_bookmark_witness :
    (intf_mgr.intf_foreach_bookmark sampleAuthority sampleDir
        (fun _ (n : Nat) => (true, n + 1)) 0 ⟨2 * 2 ^ 25 + 1⟩).calls = [] ∧
      ((intf_mgr.intf_foreach_bookmark sampleAuthority sampleDir
        (fun _ (n : Nat) => (true, n + 1)) 0 ⟨2 ^ 25 + 1⟩).calls.head?).map Prod.fst =
        some ⟨to_uint32 (2 ^ 25 + 2)⟩ :=
  ⟨((C16_foreach_bookmark sampleAuthority sampleDir (fun _ (n : Nat) => (true, n + 1)) 0
      ⟨2 * 2 ^ 25 + 1⟩ (by decide)).2.2.2 (by decide)).1,
    (C16_foreach_bookmark sampleAuthority sampleDir (fun _ (n : Nat) => (true, n + 1)) 0
      ⟨2 ^ 25 + 1⟩ (by decide)).2.2.1 (2 ^ 25 + 2) [2 * 2 ^ 25 + 1] (by decide) (by decide)⟩

end eos
